import Mathlib

/-! Verification of the PVZ reception/product lifecycle.

A shallow embedding of the pickup-point (PVZ) service: the relational rows of
`source/db/models.py`, the data-access functions of `source/db/methods.py`,
and the domain logic of the HTTP handlers in `source/routers/pvz/actions.py`
(authentication and role checks are external collaborators and are not
modelled).  Identities (UUIDs in the source) are modelled as `Nat` drawn from
a store-level counter; `func.now()` timestamps are modelled by a strictly
increasing store-level clock, so any two rows created by distinct operations
carry distinct timestamps.
-/

namespace PVZ

/-- Enum `ReceptionStatus` from `source/db/db_types.py`. -/
inductive ReceptionStatus where
  | in_progress
  | close
deriving DecidableEq, Repr

/-- Enum `CityType` from `source/db/db_types.py`. -/
inductive CityType where
  | moscow
  | spb
  | kazan
deriving DecidableEq, Repr

/-- Enum `ProductType` from `source/db/db_types.py`. -/
inductive ProductType where
  | electonic
  | clothes
  | shoes
deriving DecidableEq, Repr

/-- Enum `RoleType` from `source/db/db_types.py` (consumed but not enforced
here: role checks are part of the excluded auth layer). -/
inductive RoleType where
  | employee
  | moderator
deriving DecidableEq, Repr

/-- A row of table `user` (`source/db/models.py`, class `User`). -/
structure UserRow where
  id : Nat
  email : String
  role : RoleType
deriving DecidableEq, Repr

/-- A row of table `pvztable` (`source/db/models.py`, class `PVZTable`). -/
structure PVZRow where
  id : Nat
  city : CityType
  registrationDate : Nat
deriving DecidableEq, Repr

/-- A row of table `reception` (`source/db/models.py`, class `Reception`):
id, `dateTime` (default `func.now()`), `pvzId` (FK to `pvztable.id`),
`status` (enum, default `in_progress`). -/
structure ReceptionRow where
  id : Nat
  pvzId : Nat
  dateTime : Nat
  status : ReceptionStatus
deriving DecidableEq, Repr

/-- A row of table `product` (`source/db/models.py`, class `Product`):
id, `dateTime` (default `func.now()`), `type`, `receptionId` (FK to
`reception.id`). -/
structure ProductRow where
  id : Nat
  receptionId : Nat
  dateTime : Nat
  type : ProductType
deriving DecidableEq, Repr

/-- The relational store: the four tables plus the identity counter
(`uuid.uuid4` generation, modelled as a counter handing out fresh ids) and
the clock backing `func.now()`.  Rows are kept in insertion order. -/
structure Store where
  users : List UserRow
  pvzs : List PVZRow
  receptions : List ReceptionRow
  products : List ProductRow
  nextId : Nat
  clock : Nat
deriving DecidableEq, Repr

/-- The empty database. -/
def Store.empty : Store := ⟨[], [], [], [], 0, 0⟩

/-- Storage-layer failures: the foreign-key constraints of
`source/db/models.py` (`reception.pvzId → pvztable.id`,
`product.receptionId → reception.id`) reject an insert referencing a missing
parent; the python layer sees this as a generic exception, never as a domain
conflict. -/
inductive DBError where
  | fkViolation
deriving DecidableEq, Repr

/-- Does a pickup point with this id exist (the FK target check for
`reception.pvzId`)? -/
def pvzIdExists (s : Store) (p : Nat) : Bool :=
  s.pvzs.any (fun row => row.id == p)

/-- Does a reception with this id exist (the FK target check for
`product.receptionId`)? -/
def receptionIdExists (s : Store) (r : Nat) : Bool :=
  s.receptions.any (fun row => row.id == r)

/-- One comparison step of the `ORDER BY dateTime DESC` / `.first()`
pattern: keep whichever row has the strictly later timestamp (on the
distinct timestamps produced by the clock the scan yields the unique
maximum). -/
def pickLater {α : Type} (dt : α → Nat) (acc : Option α) (r : α) : Option α :=
  match acc with
  | none => some r
  | some b => if dt b < dt r then some r else some b

/-- The `ORDER BY dateTime DESC` clause followed by `.first()`: the element
of maximal timestamp, scanning left to right. -/
def firstByDateTimeDesc {α : Type} (dt : α → Nat) (l : List α) : Option α :=
  l.foldl (pickLater dt) none

/-- The latest reception of a list, by `dateTime`. -/
def maxByDateTimeR (l : List ReceptionRow) : Option ReceptionRow :=
  firstByDateTimeDesc (fun r => r.dateTime) l

/-- The latest product of a list, by `dateTime`. -/
def maxByDateTimeP (l : List ProductRow) : Option ProductRow :=
  firstByDateTimeDesc (fun q => q.dateTime) l

/-- The Reception rows of one pickup point (`WHERE Reception.pvzId == pvz_id`). -/
def receptionsOf (s : Store) (pvz : Nat) : List ReceptionRow :=
  s.receptions.filter (fun r => r.pvzId == pvz)

/-- The Product rows of one reception (`WHERE Product.receptionId == reception_id`;
also the `Reception.products` relationship). -/
def productsOf (s : Store) (rid : Nat) : List ProductRow :=
  s.products.filter (fun q => q.receptionId == rid)

/-- Function `get_last_reception_by_pvz` (`source/db/methods.py` lines 94–105):
select receptions of the point, order by `dateTime` descending, take the
first. -/
def get_last_reception_by_pvz (s : Store) (pvz : Nat) : Option ReceptionRow :=
  maxByDateTimeR (receptionsOf s pvz)

/-- The committed effect of `session.add` on a PVZ row: append the row,
advance the id generator and the clock. -/
def Store.insertPvz (s : Store) (city : CityType) : Store :=
  { s with pvzs := s.pvzs ++ [⟨s.nextId, city, s.clock⟩],
           nextId := s.nextId + 1, clock := s.clock + 1 }

/-- The committed effect of `session.add` on a Reception row. -/
def Store.insertReception (s : Store) (p : Nat) (st : ReceptionStatus) : Store :=
  { s with receptions := s.receptions ++ [⟨s.nextId, p, s.clock, st⟩],
           nextId := s.nextId + 1, clock := s.clock + 1 }

/-- The committed effect of `session.add` on a Product row. -/
def Store.insertProduct (s : Store) (rid : Nat) (ty : ProductType) : Store :=
  { s with products := s.products ++ [⟨s.nextId, rid, s.clock, ty⟩],
           nextId := s.nextId + 1, clock := s.clock + 1 }

/-- The committed effect of `session.delete` on a Product row: remove the
row with that primary key. -/
def Store.deleteProduct (s : Store) (lp : ProductRow) : Store :=
  { s with products := s.products.filter (fun q => !(q.id == lp.id)) }

/-- Function `create_pvz` (`source/db/methods.py` lines 51–62): insert a new PVZ row
with a fresh id and the current timestamp. -/
def create_pvz (s : Store) (city : CityType) : PVZRow × Store :=
  (⟨s.nextId, city, s.clock⟩, s.insertPvz city)

/-- Function `create_reception_for_pvz` (`source/db/methods.py` lines 64–75): insert
`Reception(pvzId=pvz_id, status=in_progress)`.  The commit fails on the FK
constraint when the pickup point does not exist. -/
def create_reception_for_pvz (s : Store) (pvz : Nat) :
    Except DBError (ReceptionRow × Store) :=
  if pvzIdExists s pvz then
    Except.ok (⟨s.nextId, pvz, s.clock, ReceptionStatus.in_progress⟩,
      s.insertReception pvz ReceptionStatus.in_progress)
  else Except.error DBError.fkViolation

/-- Function `close_reception_for_pvz` (`source/db/methods.py` lines 120–131): it
constructs `Reception(pvzId=pvz_id, status=close)` and `session.add`s it —
i.e. it INSERTS a brand-new Reception row with status `close`; no existing
row is updated. -/
def close_reception_for_pvz (s : Store) (pvz : Nat) :
    Except DBError (ReceptionRow × Store) :=
  if pvzIdExists s pvz then
    Except.ok (⟨s.nextId, pvz, s.clock, ReceptionStatus.close⟩,
      s.insertReception pvz ReceptionStatus.close)
  else Except.error DBError.fkViolation

/-- Function `create_product_for_reception` (`source/db/methods.py` lines 77–92):
insert `Product(receptionId=reception_id, type=...)`, FK-checked. -/
def create_product_for_reception (s : Store) (rid : Nat) (ty : ProductType) :
    Except DBError (ProductRow × Store) :=
  if receptionIdExists s rid then
    Except.ok (⟨s.nextId, rid, s.clock, ty⟩, s.insertProduct rid ty)
  else Except.error DBError.fkViolation

/-- Function `delete_last_product_for_reception` (`source/db/methods.py` lines
133–153): find the product of the reception with maximal `dateTime`; if one
exists delete that row (by primary key) and return it, else return `None`
and leave the store untouched. -/
def delete_last_product_for_reception (s : Store) (rid : Nat) :
    Option ProductRow × Store :=
  match maxByDateTimeP (productsOf s rid) with
  | none => (none, s)
  | some lp => (some lp, s.deleteProduct lp)

/-! The listing query `get_pvz_receptions_products`. -/

/-- Query parameters (`PVZList` schema: `start_date`, `end_date`, `page ≥ 1`,
`1 ≤ limit ≤ 30` enforced by the schema layer). -/
structure PVZListParams where
  start_date : Nat
  end_date : Nat
  page : Nat
  limit : Nat
deriving DecidableEq, Repr

/-- The `WHERE` clause of the listing statement (`source/db/methods.py`
lines 167–171): `status == in_progress`, `dateTime >= start_date`,
`dateTime <= end_date`. -/
def matchesListing (q : PVZListParams) (r : ReceptionRow) : Bool :=
  decide (r.status = ReceptionStatus.in_progress) &&
    decide (q.start_date ≤ r.dateTime) && decide (r.dateTime ≤ q.end_date)

/-- Insert a row into a list kept sorted by `dateTime` descending. -/
def insertDesc (r : ReceptionRow) : List ReceptionRow → List ReceptionRow
  | [] => [r]
  | b :: bs =>
      if b.dateTime < r.dateTime then r :: b :: bs else b :: insertDesc r bs

/-- The `ORDER BY Reception.dateTime DESC` clause realised as an insertion sort. -/
def sortByDateTimeDesc (l : List ReceptionRow) : List ReceptionRow :=
  l.foldr insertDesc []

/-- The reception window returned by the listing statement
(`source/db/methods.py` lines 163–177): filter, order by `dateTime`
descending, then `OFFSET (page-1)*limit` and `LIMIT limit`. -/
def listedReceptions (s : Store) (q : PVZListParams) : List ReceptionRow :=
  let offset_val := (q.page - 1) * q.limit
  ((sortByDateTimeDesc (s.receptions.filter (matchesListing q))).drop
    offset_val).take q.limit

/-- One output group: a pickup-point id paired with its list of
(reception id, product id) entries — the dict literal built at
`source/db/methods.py` lines 184–188. -/
abbrev PvzGroup := Nat × List (Nat × Nat)

/-- The `pvz_group.setdefault(pvz_id, []).append(pair)` step on an
insertion-ordered dict, modelled as an association list: append to the
existing key's list, or add the key at the end. -/
def addPair (g : List PvzGroup) (k : Nat) (pr : Nat × Nat) : List PvzGroup :=
  match g with
  | [] => [(k, [pr])]
  | (k', v) :: rest =>
      if k' == k then (k', v ++ [pr]) :: rest else (k', v) :: addPair rest k pr

/-- The grouping loop of `get_pvz_receptions_products`
(`source/db/methods.py` lines 178–188): iterate the selected receptions in
order, skip those with no products, and append one `(reception, product)`
pair per product to the owning pickup point's group. -/
def groupByPvz (s : Store) (recs : List ReceptionRow) : List PvzGroup :=
  recs.foldl
    (fun g rec =>
      let prods := productsOf s rec.id
      if prods.isEmpty then g
      else prods.foldl (fun g' p => addPair g' rec.pvzId (rec.id, p.id)) g)
    []

/-- Function `get_pvz_receptions_products` (`source/db/methods.py` lines 155–190):
the paginated selection followed by the per-pickup-point grouping. -/
def get_pvz_receptions_products (s : Store) (q : PVZListParams) :
    List PvzGroup :=
  groupByPvz s (listedReceptions s q)

/-! The HTTP handlers of `source/routers/pvz/actions.py`.

Role checks (`403`) belong to the excluded auth layer.  A handler outcome is
either a success description, a `400` raised by a domain guard (the spec's
`ConflictError`), or the generic `400 "Неверный запрос"` produced by the
`except Exception` branch when the storage layer fails (the spec's
`StorageError` surface). -/

/-- Outcome of one handler call. -/
inductive ApiOutcome where
  | success (description : String)
  | conflict (detail : String)
  | storageError
deriving DecidableEq, Repr

/-- Handler `create_pvz_` (`actions.py` lines 45–61): insert the pickup point. -/
def api_create_pvz (s : Store) (city : CityType) : ApiOutcome × Store :=
  let (_, s') := create_pvz s city
  (ApiOutcome.success "ПВЗ создан", s')

/-- Handler `create_reception` (`actions.py` lines 69–91): reject when the latest
reception of the point is still `in_progress`, else insert a fresh open
reception. -/
def api_create_reception (s : Store) (pvz : Nat) : ApiOutcome × Store :=
  match get_last_reception_by_pvz s pvz with
  | some last_rec =>
      if last_rec.status = ReceptionStatus.in_progress then
        (ApiOutcome.conflict "Есть незакрытая приемка", s)
      else
        match create_reception_for_pvz s pvz with
        | Except.ok (_, s') => (ApiOutcome.success "Приемка создана", s')
        | Except.error _ => (ApiOutcome.storageError, s)
  | none =>
      match create_reception_for_pvz s pvz with
      | Except.ok (_, s') => (ApiOutcome.success "Приемка создана", s')
      | Except.error _ => (ApiOutcome.storageError, s)

/-- Handler `create_product` (`actions.py` lines 99–121): reject when there is no
reception or the latest one is closed, else insert the product into the
latest reception. -/
def api_create_product (s : Store) (pvz : Nat) (ty : ProductType) :
    ApiOutcome × Store :=
  match get_last_reception_by_pvz s pvz with
  | none => (ApiOutcome.conflict "Нет активной приемки", s)
  | some last_rec =>
      if last_rec.status = ReceptionStatus.close then
        (ApiOutcome.conflict "Нет активной приемки", s)
      else
        match create_product_for_reception s last_rec.id ty with
        | Except.ok (_, s') => (ApiOutcome.success "Товар добавлен", s')
        | Except.error _ => (ApiOutcome.storageError, s)

/-- Handler `close_reception` (`actions.py` lines 129–150): reject when there is no
reception or the latest one is closed, else call `close_reception_for_pvz`
(which inserts a new closed row). -/
def api_close_reception (s : Store) (pvz : Nat) : ApiOutcome × Store :=
  match get_last_reception_by_pvz s pvz with
  | none => (ApiOutcome.conflict "Приемка уже закрыта или не существует", s)
  | some last_rec =>
      if last_rec.status = ReceptionStatus.close then
        (ApiOutcome.conflict "Приемка уже закрыта или не существует", s)
      else
        match close_reception_for_pvz s pvz with
        | Except.ok (_, s') => (ApiOutcome.success "Приемка закрыта", s')
        | Except.error _ => (ApiOutcome.storageError, s)

/-- Handler `delete_last_product` (`actions.py` lines 158–182): reject when there is
no reception or the latest one is closed, else delete the latest product of
the latest reception; an empty reception is a success (`"Не осталось
товаров"`), not an error.  The middle component is the `deleted` value of
the handler. -/
def api_delete_last_product (s : Store) (pvz : Nat) :
    ApiOutcome × Option ProductRow × Store :=
  match get_last_reception_by_pvz s pvz with
  | none =>
      (ApiOutcome.conflict "Нет активной приемки или товаров для удаления", none, s)
  | some last_rec =>
      if last_rec.status = ReceptionStatus.close then
        (ApiOutcome.conflict "Нет активной приемки или товаров для удаления", none, s)
      else
        match delete_last_product_for_reception s last_rec.id with
        | (some deleted, s') => (ApiOutcome.success "Товар удален", some deleted, s')
        | (none, s') => (ApiOutcome.success "Не осталось товаров", none, s')

/-! Sequential API traces. -/

/-- One API call (with the validated inputs the excluded layers provide). -/
inductive Action where
  | createPvz (city : CityType)
  | openReception (pvz : Nat)
  | addProduct (pvz : Nat) (ty : ProductType)
  | removeLastProduct (pvz : Nat)
  | closeReception (pvz : Nat)
deriving DecidableEq, Repr

/-- Dispatch one API call against the store. -/
def apiStep (s : Store) (a : Action) : ApiOutcome × Store :=
  match a with
  | Action.createPvz city => api_create_pvz s city
  | Action.openReception p => api_create_reception s p
  | Action.addProduct p ty => api_create_product s p ty
  | Action.removeLastProduct p =>
      let (o, _, s') := api_delete_last_product s p
      (o, s')
  | Action.closeReception p => api_close_reception s p

/-- Run a sequence of API calls, keeping only the final store. -/
def runTrace (s : Store) : List Action → Store
  | [] => s
  | a :: tr => runTrace (apiStep s a).2 tr

/-- The number of Reception rows of a pickup point whose status column is
`in_progress` (the spec's "open"). -/
def countOpen (s : Store) (pvz : Nat) : Nat :=
  (s.receptions.filter
    (fun r => r.pvzId == pvz && decide (r.status = ReceptionStatus.in_progress))).length

/-! Store well-formedness.

Every store produced by the service satisfies these structural facts: ids
are pairwise distinct and below the id counter (uuid freshness), and the
`func.now()` timestamps recorded in rows are strictly increasing in
insertion order and below the clock. -/

/-- Well-formedness of a store (holds of every reachable store): row ids are
pairwise distinct and below the id counter, timestamps are strictly
increasing in insertion order and below the clock. -/
def WF (s : Store) : Prop :=
  (s.receptions.map (fun r => r.id)).Nodup ∧
  (s.products.map (fun q => q.id)).Nodup ∧
  (∀ r ∈ s.receptions, r.id < s.nextId) ∧
  (∀ q ∈ s.products, q.id < s.nextId) ∧
  (∀ p ∈ s.pvzs, p.id < s.nextId) ∧
  (∀ r ∈ s.receptions, r.dateTime < s.clock) ∧
  (∀ q ∈ s.products, q.dateTime < s.clock) ∧
  List.Pairwise (fun a b : ReceptionRow => a.dateTime < b.dateTime) s.receptions ∧
  List.Pairwise (fun a b : ProductRow => a.dateTime < b.dateTime) s.products

instance (s : Store) : Decidable (WF s) := by
  unfold WF; infer_instance

/-! Two concurrent `openReception` calls.

Each handler call is a read (`get_last_reception_by_pvz`, one SELECT in its
own awaited round-trip) followed — when the guard passes — by a write
(`create_reception_for_pvz`, one INSERT+COMMIT).  Two concurrent requests
interleave these atomic database steps arbitrarily; `source/db/models.py`
declares no uniqueness constraint over `(pvzId, status)` and the handlers
take no lock, so nothing orders the two check-then-act sequences. -/

/-- Progress of one in-flight `create_reception` request: not yet started
its SELECT, guard passed and INSERT pending, or finished with an outcome. -/
inductive ThreadPC where
  | start
  | ready
  | done (o : ApiOutcome)
deriving DecidableEq, Repr

/-- Run the next atomic database step of one request against the shared
store. -/
def openStep (s : Store) (pvz : Nat) : ThreadPC → ThreadPC × Store
  | ThreadPC.start =>
      match get_last_reception_by_pvz s pvz with
      | some last_rec =>
          if last_rec.status = ReceptionStatus.in_progress then
            (ThreadPC.done (ApiOutcome.conflict "Есть незакрытая приемка"), s)
          else (ThreadPC.ready, s)
      | none => (ThreadPC.ready, s)
  | ThreadPC.ready =>
      match create_reception_for_pvz s pvz with
      | Except.ok (_, s') => (ThreadPC.done (ApiOutcome.success "Приемка создана"), s')
      | Except.error _ => (ThreadPC.done ApiOutcome.storageError, s)
  | ThreadPC.done o => (ThreadPC.done o, s)

/-- System state of the race: the shared store and the two requests. -/
structure RaceState where
  store : Store
  t1 : ThreadPC
  t2 : ThreadPC
deriving DecidableEq, Repr

/-- Execute a schedule (`false` steps request 1, `true` steps request 2),
both requests being `create_reception` calls for the same pickup point. -/
def runRace (pvz : Nat) : RaceState → List Bool → RaceState
  | st, [] => st
  | st, false :: sch =>
      let (pc, s') := openStep st.store pvz st.t1
      runRace pvz ⟨s', pc, st.t2⟩ sch
  | st, true :: sch =>
      let (pc, s') := openStep st.store pvz st.t2
      runRace pvz ⟨s', st.t1, pc⟩ sch

end PVZ

namespace PVZ

/-! Basic facts about the latest-by-timestamp scan. -/

theorem foldl_pickLater_isSome {α : Type} (dt : α → Nat) :
    ∀ (l : List α) (b : α), ∃ c, l.foldl (pickLater dt) (some b) = some c := by
  intro l
  induction l with
  | nil => intro b; exact ⟨b, rfl⟩
  | cons r rs ih =>
      intro b
      show ∃ c, rs.foldl (pickLater dt) (pickLater dt (some b) r) = some c
      unfold pickLater
      by_cases h : dt b < dt r
      · simp only [h, if_true]; exact ih r
      · simp only [h, if_false]; exact ih b

theorem foldl_pickLater_mem {α : Type} (dt : α → Nat) :
    ∀ (l : List α) (b c : α),
      l.foldl (pickLater dt) (some b) = some c → c = b ∨ c ∈ l := by
  intro l
  induction l with
  | nil => intro b c h; exact Or.inl (Option.some_injective _ h).symm
  | cons r rs ih =>
      intro b c h
      change rs.foldl (pickLater dt) (pickLater dt (some b) r) = some c at h
      unfold pickLater at h
      by_cases hbr : dt b < dt r
      · simp only [hbr, if_true] at h
        rcases ih r c h with h1 | h1
        · exact Or.inr (h1 ▸ List.mem_cons_self r rs)
        · exact Or.inr (List.mem_cons_of_mem r h1)
      · simp only [hbr, if_false] at h
        rcases ih b c h with h1 | h1
        · exact Or.inl h1
        · exact Or.inr (List.mem_cons_of_mem r h1)

theorem foldl_pickLater_ub {α : Type} (dt : α → Nat) :
    ∀ (l : List α) (b c : α),
      l.foldl (pickLater dt) (some b) = some c →
      dt b ≤ dt c ∧ ∀ a ∈ l, dt a ≤ dt c := by
  intro l
  induction l with
  | nil =>
      intro b c h
      cases Option.some_injective _ h
      exact ⟨Nat.le_refl _, fun a ha => absurd ha (List.not_mem_nil a)⟩
  | cons r rs ih =>
      intro b c h
      change rs.foldl (pickLater dt) (pickLater dt (some b) r) = some c at h
      unfold pickLater at h
      by_cases hbr : dt b < dt r
      · simp only [hbr, if_true] at h
        obtain ⟨h1, h2⟩ := ih r c h
        refine ⟨Nat.le_trans (Nat.le_of_lt hbr) h1, ?_⟩
        intro a ha
        rcases List.mem_cons.mp ha with rfl | ha
        · exact h1
        · exact h2 a ha
      · simp only [hbr, if_false] at h
        obtain ⟨h1, h2⟩ := ih b c h
        refine ⟨h1, ?_⟩
        intro a ha
        rcases List.mem_cons.mp ha with rfl | ha
        · exact Nat.le_trans (Nat.le_of_not_lt hbr) h1
        · exact h2 a ha

theorem firstByDateTimeDesc_eq_none_iff {α : Type} (dt : α → Nat) (l : List α) :
    firstByDateTimeDesc dt l = none ↔ l = [] := by
  cases l with
  | nil => simp [firstByDateTimeDesc]
  | cons r rs =>
      simp only [firstByDateTimeDesc, List.foldl_cons]
      constructor
      · intro h
        obtain ⟨c, hc⟩ := foldl_pickLater_isSome dt rs r
        rw [show pickLater dt none r = some r from rfl] at h
        rw [hc] at h
        exact absurd h (Option.some_ne_none c)
      · intro h; exact absurd h (List.cons_ne_nil r rs)

theorem firstByDateTimeDesc_mem {α : Type} (dt : α → Nat) (l : List α) (c : α)
    (h : firstByDateTimeDesc dt l = some c) : c ∈ l := by
  cases l with
  | nil => exact absurd h (Option.noConfusion)
  | cons r rs =>
      simp only [firstByDateTimeDesc, List.foldl_cons] at h
      rw [show pickLater dt none r = some r from rfl] at h
      rcases foldl_pickLater_mem dt rs r c h with h1 | h1
      · exact h1 ▸ List.mem_cons_self r rs
      · exact List.mem_cons_of_mem r h1

theorem firstByDateTimeDesc_ub {α : Type} (dt : α → Nat) (l : List α) (c : α)
    (h : firstByDateTimeDesc dt l = some c) : ∀ a ∈ l, dt a ≤ dt c := by
  cases l with
  | nil => intro a ha; exact absurd ha (List.not_mem_nil a)
  | cons r rs =>
      simp only [firstByDateTimeDesc, List.foldl_cons] at h
      rw [show pickLater dt none r = some r from rfl] at h
      obtain ⟨h1, h2⟩ := foldl_pickLater_ub dt rs r c h
      intro a ha
      rcases List.mem_cons.mp ha with rfl | ha
      · exact h1
      · exact h2 a ha

theorem firstByDateTimeDesc_append_max {α : Type} (dt : α → Nat) (l : List α)
    (x : α) (h : ∀ a ∈ l, dt a < dt x) :
    firstByDateTimeDesc dt (l ++ [x]) = some x := by
  unfold firstByDateTimeDesc
  rw [List.foldl_append]
  show pickLater dt (firstByDateTimeDesc dt l) x = some x
  cases hfb : firstByDateTimeDesc dt l with
  | none => rfl
  | some b =>
      have hb : b ∈ l := firstByDateTimeDesc_mem dt l b hfb
      show (if dt b < dt x then some x else some b) = some x
      simp [h b hb]

theorem firstByDateTimeDesc_singleton {α : Type} (dt : α → Nat) (x : α) :
    firstByDateTimeDesc dt [x] = some x := rfl

end PVZ

namespace PVZ

/-! Preservation of well-formedness by the storage operations. -/

theorem nodup_append_singleton {α : Type} {l : List α} {a : α}
    (h : l.Nodup) (ha : a ∉ l) : (l ++ [a]).Nodup := by
  rw [List.nodup_append]
  exact ⟨h, List.nodup_singleton a, by
    intro x hx hx1
    rcases List.mem_singleton.mp hx1 with rfl
    exact ha hx⟩

theorem pairwise_append_singleton {α : Type} {R : α → α → Prop} {l : List α}
    {a : α} (h : List.Pairwise R l) (ha : ∀ x ∈ l, R x a) :
    List.Pairwise R (l ++ [a]) := by
  rw [List.pairwise_append]
  exact ⟨h, List.pairwise_singleton R a, by
    intro x hx y hy
    rcases List.mem_singleton.mp hy with rfl
    exact ha x hx⟩

theorem not_mem_map_id_of_lt {α : Type} (f : α → Nat) {l : List α} {n : Nat}
    (h : ∀ x ∈ l, f x < n) : n ∉ l.map f := by
  intro hmem
  obtain ⟨x, hx, hfx⟩ := List.mem_map.mp hmem
  exact absurd (hfx ▸ h x hx) (Nat.lt_irrefl n)

theorem wf_insert_reception {s : Store} (h : WF s) (p : Nat)
    (st : ReceptionStatus) : WF (s.insertReception p st) := by
  unfold Store.insertReception
  obtain ⟨h1, h2, h3, h4, h5, h6, h7, h8, h9⟩ := h
  refine ⟨?_, h2, ?_, ?_, ?_, ?_, ?_, ?_, h9⟩
  · rw [List.map_append]
    exact nodup_append_singleton h1 (not_mem_map_id_of_lt _ h3)
  · intro r hr
    rcases List.mem_append.mp hr with hr | hr
    · exact Nat.lt_trans (h3 r hr) (Nat.lt_succ_self _)
    · rcases List.mem_singleton.mp hr with rfl
      exact Nat.lt_succ_self _
  · intro q hq; exact Nat.lt_trans (h4 q hq) (Nat.lt_succ_self _)
  · intro pv hpv; exact Nat.lt_trans (h5 pv hpv) (Nat.lt_succ_self _)
  · intro r hr
    rcases List.mem_append.mp hr with hr | hr
    · exact Nat.lt_trans (h6 r hr) (Nat.lt_succ_self _)
    · rcases List.mem_singleton.mp hr with rfl
      exact Nat.lt_succ_self _
  · intro q hq; exact Nat.lt_trans (h7 q hq) (Nat.lt_succ_self _)
  · exact pairwise_append_singleton h8 (fun x hx => h6 x hx)

theorem wf_insert_product {s : Store} (h : WF s) (rid : Nat)
    (ty : ProductType) : WF (s.insertProduct rid ty) := by
  unfold Store.insertProduct
  obtain ⟨h1, h2, h3, h4, h5, h6, h7, h8, h9⟩ := h
  refine ⟨h1, ?_, ?_, ?_, ?_, ?_, ?_, h8, ?_⟩
  · rw [List.map_append]
    exact nodup_append_singleton h2 (not_mem_map_id_of_lt _ h4)
  · intro r hr; exact Nat.lt_trans (h3 r hr) (Nat.lt_succ_self _)
  · intro q hq
    rcases List.mem_append.mp hq with hq | hq
    · exact Nat.lt_trans (h4 q hq) (Nat.lt_succ_self _)
    · rcases List.mem_singleton.mp hq with rfl
      exact Nat.lt_succ_self _
  · intro pv hpv; exact Nat.lt_trans (h5 pv hpv) (Nat.lt_succ_self _)
  · intro r hr; exact Nat.lt_trans (h6 r hr) (Nat.lt_succ_self _)
  · intro q hq
    rcases List.mem_append.mp hq with hq | hq
    · exact Nat.lt_trans (h7 q hq) (Nat.lt_succ_self _)
    · rcases List.mem_singleton.mp hq with rfl
      exact Nat.lt_succ_self _
  · exact pairwise_append_singleton h9 (fun x hx => h7 x hx)

theorem wf_insert_pvz {s : Store} (h : WF s) (city : CityType) :
    WF (s.insertPvz city) := by
  unfold Store.insertPvz
  obtain ⟨h1, h2, h3, h4, h5, h6, h7, h8, h9⟩ := h
  refine ⟨h1, h2, ?_, ?_, ?_, ?_, ?_, h8, h9⟩
  · intro r hr; exact Nat.lt_trans (h3 r hr) (Nat.lt_succ_self _)
  · intro q hq; exact Nat.lt_trans (h4 q hq) (Nat.lt_succ_self _)
  · intro pv hpv
    rcases List.mem_append.mp hpv with hpv | hpv
    · exact Nat.lt_trans (h5 pv hpv) (Nat.lt_succ_self _)
    · rcases List.mem_singleton.mp hpv with rfl
      exact Nat.lt_succ_self _
  · intro r hr; exact Nat.lt_trans (h6 r hr) (Nat.lt_succ_self _)
  · intro q hq; exact Nat.lt_trans (h7 q hq) (Nat.lt_succ_self _)

theorem wf_filter_products {s : Store} (h : WF s) (pred : ProductRow → Bool) :
    WF { s with products := s.products.filter pred } := by
  obtain ⟨h1, h2, h3, h4, h5, h6, h7, h8, h9⟩ := h
  have hsub : List.Sublist (s.products.filter pred) s.products :=
    List.filter_sublist _
  refine ⟨h1, ?_, h3, ?_, h5, h6, ?_, h8, ?_⟩
  · exact List.Nodup.sublist (List.Sublist.map _ hsub) h2
  · intro q hq; exact h4 q (hsub.mem hq)
  · intro q hq; exact h7 q (hsub.mem hq)
  · exact List.Pairwise.sublist hsub h9

end PVZ

namespace PVZ

theorem wf_delete_product {s : Store} (h : WF s) (lp : ProductRow) :
    WF (s.deleteProduct lp) :=
  wf_filter_products h _

/-! Branch characterizations of the handlers. -/

theorem create_reception_for_pvz_ok {s : Store} {p : Nat}
    (hex : pvzIdExists s p = true) :
    create_reception_for_pvz s p =
      Except.ok (⟨s.nextId, p, s.clock, ReceptionStatus.in_progress⟩,
        s.insertReception p ReceptionStatus.in_progress) := by
  simp [create_reception_for_pvz, hex]

theorem create_reception_for_pvz_err {s : Store} {p : Nat}
    (hex : pvzIdExists s p = false) :
    create_reception_for_pvz s p = Except.error DBError.fkViolation := by
  simp [create_reception_for_pvz, hex]

theorem close_reception_for_pvz_ok {s : Store} {p : Nat}
    (hex : pvzIdExists s p = true) :
    close_reception_for_pvz s p =
      Except.ok (⟨s.nextId, p, s.clock, ReceptionStatus.close⟩,
        s.insertReception p ReceptionStatus.close) := by
  simp [close_reception_for_pvz, hex]

theorem create_product_for_reception_ok {s : Store} {rid : Nat}
    (ty : ProductType) (hex : receptionIdExists s rid = true) :
    create_product_for_reception s rid ty =
      Except.ok (⟨s.nextId, rid, s.clock, ty⟩, s.insertProduct rid ty) := by
  simp [create_product_for_reception, hex]

theorem api_create_reception_of_open {s : Store} {p : Nat} {r : ReceptionRow}
    (hg : get_last_reception_by_pvz s p = some r)
    (hs : r.status = ReceptionStatus.in_progress) :
    api_create_reception s p = (ApiOutcome.conflict "Есть незакрытая приемка", s) := by
  simp [api_create_reception, hg, hs]

theorem api_create_reception_of_none {s : Store} {p : Nat}
    (hg : get_last_reception_by_pvz s p = none)
    (hex : pvzIdExists s p = true) :
    api_create_reception s p =
      (ApiOutcome.success "Приемка создана",
       s.insertReception p ReceptionStatus.in_progress) := by
  simp [api_create_reception, hg, create_reception_for_pvz_ok hex]

theorem api_create_reception_of_none_fk {s : Store} {p : Nat}
    (hg : get_last_reception_by_pvz s p = none)
    (hex : pvzIdExists s p = false) :
    api_create_reception s p = (ApiOutcome.storageError, s) := by
  simp [api_create_reception, hg, create_reception_for_pvz_err hex]

theorem api_create_reception_of_closed {s : Store} {p : Nat} {r : ReceptionRow}
    (hg : get_last_reception_by_pvz s p = some r)
    (hs : r.status = ReceptionStatus.close)
    (hex : pvzIdExists s p = true) :
    api_create_reception s p =
      (ApiOutcome.success "Приемка создана",
       s.insertReception p ReceptionStatus.in_progress) := by
  simp [api_create_reception, hg, hs, create_reception_for_pvz_ok hex]

theorem api_create_reception_of_closed_fk {s : Store} {p : Nat} {r : ReceptionRow}
    (hg : get_last_reception_by_pvz s p = some r)
    (hs : r.status = ReceptionStatus.close)
    (hex : pvzIdExists s p = false) :
    api_create_reception s p = (ApiOutcome.storageError, s) := by
  simp [api_create_reception, hg, hs, create_reception_for_pvz_err hex]

theorem api_close_reception_of_none {s : Store} {p : Nat}
    (hg : get_last_reception_by_pvz s p = none) :
    api_close_reception s p =
      (ApiOutcome.conflict "Приемка уже закрыта или не существует", s) := by
  simp [api_close_reception, hg]

theorem api_close_reception_of_closed {s : Store} {p : Nat} {r : ReceptionRow}
    (hg : get_last_reception_by_pvz s p = some r)
    (hs : r.status = ReceptionStatus.close) :
    api_close_reception s p =
      (ApiOutcome.conflict "Приемка уже закрыта или не существует", s) := by
  simp [api_close_reception, hg, hs]

theorem api_close_reception_of_open {s : Store} {p : Nat} {r : ReceptionRow}
    (hg : get_last_reception_by_pvz s p = some r)
    (hs : r.status = ReceptionStatus.in_progress)
    (hex : pvzIdExists s p = true) :
    api_close_reception s p =
      (ApiOutcome.success "Приемка закрыта",
       s.insertReception p ReceptionStatus.close) := by
  simp [api_close_reception, hg, hs, close_reception_for_pvz_ok hex]

theorem api_close_reception_of_open_fk {s : Store} {p : Nat} {r : ReceptionRow}
    (hg : get_last_reception_by_pvz s p = some r)
    (hs : r.status = ReceptionStatus.in_progress)
    (hex : pvzIdExists s p = false) :
    api_close_reception s p = (ApiOutcome.storageError, s) := by
  simp [api_close_reception, hg, hs, close_reception_for_pvz, hex]

theorem api_create_product_of_none {s : Store} {p : Nat} (ty : ProductType)
    (hg : get_last_reception_by_pvz s p = none) :
    api_create_product s p ty = (ApiOutcome.conflict "Нет активной приемки", s) := by
  simp [api_create_product, hg]

theorem api_create_product_of_closed {s : Store} {p : Nat} {r : ReceptionRow}
    (ty : ProductType) (hg : get_last_reception_by_pvz s p = some r)
    (hs : r.status = ReceptionStatus.close) :
    api_create_product s p ty = (ApiOutcome.conflict "Нет активной приемки", s) := by
  simp [api_create_product, hg, hs]

theorem api_create_product_of_open {s : Store} {p : Nat} {r : ReceptionRow}
    (ty : ProductType) (hg : get_last_reception_by_pvz s p = some r)
    (hs : r.status = ReceptionStatus.in_progress)
    (hex : receptionIdExists s r.id = true) :
    api_create_product s p ty =
      (ApiOutcome.success "Товар добавлен", s.insertProduct r.id ty) := by
  simp [api_create_product, hg, hs, create_product_for_reception_ok ty hex]

theorem api_delete_last_product_of_none {s : Store} {p : Nat}
    (hg : get_last_reception_by_pvz s p = none) :
    api_delete_last_product s p =
      (ApiOutcome.conflict "Нет активной приемки или товаров для удаления", none, s) := by
  simp [api_delete_last_product, hg]

theorem api_delete_last_product_of_closed {s : Store} {p : Nat}
    {r : ReceptionRow} (hg : get_last_reception_by_pvz s p = some r)
    (hs : r.status = ReceptionStatus.close) :
    api_delete_last_product s p =
      (ApiOutcome.conflict "Нет активной приемки или товаров для удаления", none, s) := by
  simp [api_delete_last_product, hg, hs]

theorem api_delete_last_product_of_empty {s : Store} {p : Nat}
    {r : ReceptionRow} (hg : get_last_reception_by_pvz s p = some r)
    (hs : r.status = ReceptionStatus.in_progress)
    (hempty : productsOf s r.id = []) :
    api_delete_last_product s p =
      (ApiOutcome.success "Не осталось товаров", none, s) := by
  simp [api_delete_last_product, hg, hs, delete_last_product_for_reception,
    hempty, maxByDateTimeP, firstByDateTimeDesc]

theorem api_delete_last_product_of_some {s : Store} {p : Nat}
    {r : ReceptionRow} {lp : ProductRow}
    (hg : get_last_reception_by_pvz s p = some r)
    (hs : r.status = ReceptionStatus.in_progress)
    (hlp : maxByDateTimeP (productsOf s r.id) = some lp) :
    api_delete_last_product s p =
      (ApiOutcome.success "Товар удален", some lp, s.deleteProduct lp) := by
  simp [api_delete_last_product, hg, hs, delete_last_product_for_reception, hlp]

end PVZ

namespace PVZ

theorem api_delete_last_product_of_max_none {s : Store} {p : Nat}
    {r : ReceptionRow} (hg : get_last_reception_by_pvz s p = some r)
    (hs : r.status = ReceptionStatus.in_progress)
    (hlp : maxByDateTimeP (productsOf s r.id) = none) :
    api_delete_last_product s p =
      (ApiOutcome.success "Не осталось товаров", none, s) := by
  simp [api_delete_last_product, hg, hs, delete_last_product_for_reception, hlp]

/-- A row returned by `get_last_reception_by_pvz` is a reception row of the
requested pickup point. -/
theorem get_last_mem {s : Store} {p : Nat} {r : ReceptionRow}
    (hg : get_last_reception_by_pvz s p = some r) :
    r ∈ s.receptions ∧ r.pvzId = p := by
  have hg1 : firstByDateTimeDesc (fun x : ReceptionRow => x.dateTime)
      (receptionsOf s p) = some r := hg
  have hm := firstByDateTimeDesc_mem (fun x => x.dateTime) (receptionsOf s p) r hg1
  rw [receptionsOf, List.mem_filter] at hm
  exact ⟨hm.1, by have := hm.2; simpa using this⟩

/-- A row returned by `get_last_reception_by_pvz` has the latest timestamp
among the point's receptions. -/
theorem get_last_ub {s : Store} {p : Nat} {r : ReceptionRow}
    (hg : get_last_reception_by_pvz s p = some r) :
    ∀ x ∈ receptionsOf s p, x.dateTime ≤ r.dateTime := by
  have hg1 : firstByDateTimeDesc (fun x : ReceptionRow => x.dateTime)
      (receptionsOf s p) = some r := hg
  exact firstByDateTimeDesc_ub (fun x => x.dateTime) (receptionsOf s p) r hg1

theorem receptionIdExists_of_mem {s : Store} {r : ReceptionRow}
    (h : r ∈ s.receptions) : receptionIdExists s r.id = true := by
  rw [receptionIdExists, List.any_eq_true]
  exact ⟨r, h, by simp⟩

/-- Every API call preserves store well-formedness. -/
theorem wf_apiStep {s : Store} (h : WF s) (a : Action) : WF (apiStep s a).2 := by
  cases a with
  | createPvz city =>
      show WF (api_create_pvz s city).2
      have := wf_insert_pvz h city
      simpa [api_create_pvz, create_pvz] using this
  | openReception p =>
      show WF (api_create_reception s p).2
      cases hg : get_last_reception_by_pvz s p with
      | some r =>
          cases hs : r.status with
          | in_progress => rw [api_create_reception_of_open hg hs]; exact h
          | close =>
              cases hex : pvzIdExists s p with
              | true =>
                  rw [api_create_reception_of_closed hg hs hex]
                  exact wf_insert_reception h p _
              | false => rw [api_create_reception_of_closed_fk hg hs hex]; exact h
      | none =>
          cases hex : pvzIdExists s p with
          | true =>
              rw [api_create_reception_of_none hg hex]
              exact wf_insert_reception h p _
          | false => rw [api_create_reception_of_none_fk hg hex]; exact h
  | addProduct p ty =>
      show WF (api_create_product s p ty).2
      cases hg : get_last_reception_by_pvz s p with
      | some r =>
          cases hs : r.status with
          | in_progress =>
              have hex := receptionIdExists_of_mem (get_last_mem hg).1
              rw [api_create_product_of_open ty hg hs hex]
              exact wf_insert_product h _ _
          | close => rw [api_create_product_of_closed ty hg hs]; exact h
      | none => rw [api_create_product_of_none ty hg]; exact h
  | removeLastProduct p =>
      show WF (api_delete_last_product s p).2.2
      cases hg : get_last_reception_by_pvz s p with
      | some r =>
          cases hs : r.status with
          | in_progress =>
              cases hlp : maxByDateTimeP (productsOf s r.id) with
              | some lp =>
                  rw [api_delete_last_product_of_some hg hs hlp]
                  exact wf_delete_product h lp
              | none => rw [api_delete_last_product_of_max_none hg hs hlp]; exact h
          | close => rw [api_delete_last_product_of_closed hg hs]; exact h
      | none => rw [api_delete_last_product_of_none hg]; exact h
  | closeReception p =>
      show WF (api_close_reception s p).2
      cases hg : get_last_reception_by_pvz s p with
      | some r =>
          cases hs : r.status with
          | in_progress =>
              cases hex : pvzIdExists s p with
              | true =>
                  rw [api_close_reception_of_open hg hs hex]
                  exact wf_insert_reception h p _
              | false => rw [api_close_reception_of_open_fk hg hs hex]; exact h
          | close => rw [api_close_reception_of_closed hg hs]; exact h
      | none => rw [api_close_reception_of_none hg]; exact h

/-- Well-formedness holds along any sequential trace. -/
theorem wf_runTrace {s : Store} (h : WF s) (tr : List Action) :
    WF (runTrace s tr) := by
  induction tr generalizing s with
  | nil => exact h
  | cons a tr ih => exact ih (wf_apiStep h a)

end PVZ

namespace PVZ

/-! Effect of the store transforms on reception lookups and open counts. -/

theorem receptionsOf_insertReception_self (s : Store) (p : Nat)
    (st : ReceptionStatus) :
    receptionsOf (s.insertReception p st) p =
      receptionsOf s p ++ [⟨s.nextId, p, s.clock, st⟩] := by
  unfold receptionsOf Store.insertReception
  rw [List.filter_append]
  simp

theorem receptionsOf_insertReception_other (s : Store) {p q : Nat}
    (st : ReceptionStatus) (hne : p ≠ q) :
    receptionsOf (s.insertReception p st) q = receptionsOf s q := by
  unfold receptionsOf Store.insertReception
  rw [List.filter_append]
  simp [hne]

/-- After inserting a reception row stamped with the current clock, the
latest-reception lookup for that point returns the new row (all previous
rows are strictly older). -/
theorem get_last_insertReception_self {s : Store} (p : Nat)
    (st : ReceptionStatus) (hlt : ∀ r ∈ s.receptions, r.dateTime < s.clock) :
    get_last_reception_by_pvz (s.insertReception p st) p =
      some ⟨s.nextId, p, s.clock, st⟩ := by
  show maxByDateTimeR (receptionsOf (s.insertReception p st) p) = _
  rw [receptionsOf_insertReception_self]
  apply firstByDateTimeDesc_append_max
  intro a ha
  rw [receptionsOf, List.mem_filter] at ha
  exact hlt a ha.1

theorem countOpen_insertReception (s : Store) (q : Nat) (st : ReceptionStatus)
    (p : Nat) :
    countOpen (s.insertReception q st) p =
      countOpen s p +
        (if q = p ∧ st = ReceptionStatus.in_progress then 1 else 0) := by
  unfold countOpen Store.insertReception
  simp only [List.filter_append, List.length_append]
  congr 1
  by_cases h1 : q = p
  · by_cases h2 : st = ReceptionStatus.in_progress
    · subst h1; subst h2; simp
    · subst h1; simp [h2]
  · simp [h1]

theorem countOpen_insertProduct (s : Store) (rid : Nat) (ty : ProductType)
    (p : Nat) : countOpen (s.insertProduct rid ty) p = countOpen s p := rfl

theorem countOpen_insertPvz (s : Store) (city : CityType) (p : Nat) :
    countOpen (s.insertPvz city) p = countOpen s p := rfl

theorem countOpen_deleteProduct (s : Store) (lp : ProductRow) (p : Nat) :
    countOpen (s.deleteProduct lp) p = countOpen s p := rfl

/-- Did the handler call report success (HTTP 2xx)? -/
def isSuccess : ApiOutcome → Bool
  | ApiOutcome.success _ => true
  | ApiOutcome.conflict _ => false
  | ApiOutcome.storageError => false

end PVZ

namespace PVZ

/-- C1 (counterexample): starting from the empty store, the sequential trace
create pickup point, open reception, close reception, open reception leaves
the pickup point with TWO Reception rows in status open (`in_progress`),
because `close_reception_for_pvz` inserts a new closed row instead of
updating the open one.  This refutes the claim that the count of open
receptions per point is always 0 or 1 in every sequentially reachable
state. -/
theorem countOpen_two_after_reopen :
    countOpen (runTrace Store.empty
      [Action.createPvz CityType.moscow, Action.openReception 0,
       Action.closeReception 0, Action.openReception 0]) 0 = 2 := by decide

/-- C1 (amended): in every state and under every API call, the number of
Reception rows of a pickup point with status open (`in_progress`) increases
by exactly one on a successful open-reception call for that point and is
unchanged by every other call — in particular no call ever decreases it
(closing inserts a new closed row and flips no status), so after n
successful opens the count is n, not at most 1. -/
theorem countOpen_apiStep (s : Store) (a : Action) (p : Nat) :
    countOpen (apiStep s a).2 p =
      countOpen s p +
        (if a = Action.openReception p ∧ isSuccess (apiStep s a).1 = true
         then 1 else 0) := by
  cases a with
  | createPvz city =>
      rw [show apiStep s (Action.createPvz city) = api_create_pvz s city from rfl]
      simp [api_create_pvz, create_pvz, isSuccess, countOpen_insertPvz]
  | openReception q =>
      rw [show apiStep s (Action.openReception q) = api_create_reception s q from rfl]
      cases hg : get_last_reception_by_pvz s q with
      | some r =>
          cases hs : r.status with
          | in_progress => rw [api_create_reception_of_open hg hs]; simp [isSuccess]
          | close =>
              cases hex : pvzIdExists s q with
              | true =>
                  rw [api_create_reception_of_closed hg hs hex,
                    countOpen_insertReception]
                  by_cases hqp : q = p
                  · subst hqp; simp [isSuccess]
                  · simp [isSuccess, hqp]
              | false =>
                  rw [api_create_reception_of_closed_fk hg hs hex]
                  simp [isSuccess]
      | none =>
          cases hex : pvzIdExists s q with
          | true =>
              rw [api_create_reception_of_none hg hex, countOpen_insertReception]
              by_cases hqp : q = p
              · subst hqp; simp [isSuccess]
              · simp [isSuccess, hqp]
          | false =>
              rw [api_create_reception_of_none_fk hg hex]
              simp [isSuccess]
  | addProduct q ty =>
      rw [show apiStep s (Action.addProduct q ty) = api_create_product s q ty from rfl]
      cases hg : get_last_reception_by_pvz s q with
      | some r =>
          cases hs : r.status with
          | in_progress =>
              have hex := receptionIdExists_of_mem (get_last_mem hg).1
              rw [api_create_product_of_open ty hg hs hex]
              simp [countOpen_insertProduct]
          | close => rw [api_create_product_of_closed ty hg hs]; simp
      | none => rw [api_create_product_of_none ty hg]; simp
  | removeLastProduct q =>
      rw [show apiStep s (Action.removeLastProduct q) =
        ((api_delete_last_product s q).1, (api_delete_last_product s q).2.2) from rfl]
      cases hg : get_last_reception_by_pvz s q with
      | some r =>
          cases hs : r.status with
          | in_progress =>
              cases hlp : maxByDateTimeP (productsOf s r.id) with
              | some lp =>
                  rw [api_delete_last_product_of_some hg hs hlp]
                  simp [countOpen_deleteProduct]
              | none => rw [api_delete_last_product_of_max_none hg hs hlp]; simp
          | close => rw [api_delete_last_product_of_closed hg hs]; simp
      | none => rw [api_delete_last_product_of_none hg]; simp
  | closeReception q =>
      rw [show apiStep s (Action.closeReception q) = api_close_reception s q from rfl]
      cases hg : get_last_reception_by_pvz s q with
      | some r =>
          cases hs : r.status with
          | in_progress =>
              cases hex : pvzIdExists s q with
              | true =>
                  rw [api_close_reception_of_open hg hs hex,
                    countOpen_insertReception]
                  simp
              | false => rw [api_close_reception_of_open_fk hg hs hex]; simp
          | close => rw [api_close_reception_of_closed hg hs]; simp
      | none => rw [api_close_reception_of_none hg]; simp

end PVZ

namespace PVZ

/-- A small concrete reachable state: one pickup point (id 0) with one open
reception (id 1). -/
def storeOpen1 : Store :=
  runTrace Store.empty [Action.createPvz CityType.moscow, Action.openReception 0]

/-- C2 (counterexample): on a pickup point with one open reception,
`close_reception` reports success but the Reception table grows from one row
to two, and the formerly open row is still present with status open — the
operation inserts a new closed row instead of mutating the existing one. -/
theorem close_reception_inserts_new_row :
    (apiStep storeOpen1 (Action.closeReception 0)).1 =
        ApiOutcome.success "Приемка закрыта" ∧
    storeOpen1.receptions.length = 1 ∧
    (apiStep storeOpen1 (Action.closeReception 0)).2.receptions.length = 2 ∧
    (⟨1, 0, 1, ReceptionStatus.in_progress⟩ : ReceptionRow) ∈
      (apiStep storeOpen1 (Action.closeReception 0)).2.receptions := by decide

/-- What the close-reception handler actually guarantees (used to state the
amended C2): on an open latest reception it succeeds by APPENDING a new
Reception row with status closed — the old open row survives untouched —
after which the latest-reception lookup (the derived state) reports a closed
reception; when the latest reception is absent or closed it fails with the
conflict rejection and the store is unchanged. -/
def closeReceptionSpec (s : Store) (p : Nat) : Prop :=
  (∀ r, get_last_reception_by_pvz s p = some r →
     r.status = ReceptionStatus.in_progress →
       api_close_reception s p =
         (ApiOutcome.success "Приемка закрыта",
          s.insertReception p ReceptionStatus.close) ∧
       (s.insertReception p ReceptionStatus.close).receptions =
         s.receptions ++ [⟨s.nextId, p, s.clock, ReceptionStatus.close⟩] ∧
       r ∈ (s.insertReception p ReceptionStatus.close).receptions ∧
       get_last_reception_by_pvz (s.insertReception p ReceptionStatus.close) p =
         some ⟨s.nextId, p, s.clock, ReceptionStatus.close⟩) ∧
  (∀ r, get_last_reception_by_pvz s p = some r →
     r.status = ReceptionStatus.close →
       api_close_reception s p =
         (ApiOutcome.conflict "Приемка уже закрыта или не существует", s)) ∧
  (get_last_reception_by_pvz s p = none →
     api_close_reception s p =
       (ApiOutcome.conflict "Приемка уже закрыта или не существует", s))

/-- C2 (amended): for every well-formed store and existing pickup point,
closing succeeds exactly when the latest reception is open, but it does so
by inserting a NEW closed Reception row (the open row is not modified and
remains in the table with status open); the derived state then shows a
closed latest reception.  When the latest reception is absent or closed the
handler fails with the conflict rejection and no row is created or
modified. -/
theorem close_reception_behavior (s : Store) (p : Nat) (hWF : WF s)
    (hex : pvzIdExists s p = true) : closeReceptionSpec s p := by
  obtain ⟨h1, h2, h3, h4, h5, h6, h7, h8, h9⟩ := hWF
  refine ⟨?_, ?_, ?_⟩
  · intro r hg hs
    refine ⟨api_close_reception_of_open hg hs hex, rfl, ?_, ?_⟩
    · exact List.mem_append_left _ (get_last_mem hg).1
    · exact get_last_insertReception_self p ReceptionStatus.close h6
  · intro r hg hs
    exact api_close_reception_of_closed hg hs
  · intro hg
    exact api_close_reception_of_none hg

/-- C2 (witness store facts for the amended theorem). -/
theorem close_reception_behavior_witness :
    WF storeOpen1 ∧ pvzIdExists storeOpen1 0 = true ∧
      closeReceptionSpec storeOpen1 0 :=
  ⟨by decide, by decide, close_reception_behavior storeOpen1 0 (by decide) (by decide)⟩

end PVZ

namespace PVZ

/-- The open-reception contract of C4: the handler rejects with the conflict
error exactly when the latest reception of the point exists and is open;
otherwise it inserts a fresh Reception row with status open, and the derived
state (latest-reception lookup) then reports that new open reception. -/
def openReceptionSpec (s : Store) (p : Nat) : Prop :=
  ((api_create_reception s p).1 = ApiOutcome.conflict "Есть незакрытая приемка"
    ↔ ∃ r, get_last_reception_by_pvz s p = some r ∧
           r.status = ReceptionStatus.in_progress) ∧
  ((∀ r, get_last_reception_by_pvz s p = some r →
      r.status = ReceptionStatus.close) →
    api_create_reception s p =
      (ApiOutcome.success "Приемка создана",
       s.insertReception p ReceptionStatus.in_progress) ∧
    get_last_reception_by_pvz
        (s.insertReception p ReceptionStatus.in_progress) p =
      some ⟨s.nextId, p, s.clock, ReceptionStatus.in_progress⟩)

/-- C4: for every well-formed store and existing pickup point, openReception
fails with the conflict error exactly when the latest reception exists and
is open; otherwise (latest closed, or none) it creates a new open Reception
row and the point's derived state becomes that open reception. -/
theorem open_reception_guard (s : Store) (p : Nat) (hWF : WF s)
    (hex : pvzIdExists s p = true) : openReceptionSpec s p := by
  obtain ⟨h1, h2, h3, h4, h5, h6, h7, h8, h9⟩ := hWF
  constructor
  · constructor
    · intro hc
      cases hg : get_last_reception_by_pvz s p with
      | some r =>
          cases hs : r.status with
          | in_progress => exact ⟨r, rfl, hs⟩
          | close =>
              rw [api_create_reception_of_closed hg hs hex] at hc
              exact absurd hc (by simp)
      | none =>
          rw [api_create_reception_of_none hg hex] at hc
          exact absurd hc (by simp)
    · rintro ⟨r, hg, hs⟩
      rw [api_create_reception_of_open hg hs]
  · intro hclosed
    cases hg : get_last_reception_by_pvz s p with
    | some r =>
        have hs := hclosed r hg
        exact ⟨api_create_reception_of_closed hg hs hex,
          get_last_insertReception_self p ReceptionStatus.in_progress h6⟩
    | none =>
        exact ⟨api_create_reception_of_none hg hex,
          get_last_insertReception_self p ReceptionStatus.in_progress h6⟩

/-- A concrete reachable state with a closed latest reception: create point,
open, close (the close row ends up latest). -/
def storeClosed1 : Store :=
  runTrace Store.empty
    [Action.createPvz CityType.moscow, Action.openReception 0,
     Action.closeReception 0]

/-- C4 (witness store facts). -/
theorem open_reception_guard_witness :
    WF storeClosed1 ∧ pvzIdExists storeClosed1 0 = true ∧
      openReceptionSpec storeClosed1 0 :=
  ⟨by decide, by decide, open_reception_guard storeClosed1 0 (by decide) (by decide)⟩

/-- The C10 contract: with zero Reception rows for an id — whether or not a
pickup point with that id exists — the latest-reception lookup is absent,
the open-reception guard passes (no conflict is ever raised), and the
operation proceeds to the insert, which only the storage layer's FK
constraint can reject, surfaced as the generic error. -/
def openReceptionNoCheckSpec (s : Store) (p : Nat) : Prop :=
  get_last_reception_by_pvz s p = none ∧
  (∀ d, (api_create_reception s p).1 ≠ ApiOutcome.conflict d) ∧
  (pvzIdExists s p = true →
     api_create_reception s p =
       (ApiOutcome.success "Приемка создана",
        s.insertReception p ReceptionStatus.in_progress)) ∧
  (pvzIdExists s p = false →
     api_create_reception s p = (ApiOutcome.storageError, s))

/-- C10: the open-reception precondition check never verifies that the
pickup point exists: for every id with no Reception rows the lookup returns
absent and the conflict check passes; the attempted insert is rejected only
by the FK constraint, as a generic storage error, never as a domain
conflict. -/
theorem open_reception_no_pvz_check (s : Store) (p : Nat)
    (hnone : receptionsOf s p = []) : openReceptionNoCheckSpec s p := by
  have hg : get_last_reception_by_pvz s p = none := by
    show maxByDateTimeR (receptionsOf s p) = none
    rw [hnone]
    rfl
  refine ⟨hg, ?_, ?_, ?_⟩
  · intro d
    cases hex : pvzIdExists s p with
    | true => rw [api_create_reception_of_none hg hex]; simp
    | false => rw [api_create_reception_of_none_fk hg hex]; simp
  · intro hex; exact api_create_reception_of_none hg hex
  · intro hex; exact api_create_reception_of_none_fk hg hex

/-- C10 (witness): in the one-pickup-point store, id 7 names no pickup point
and has no receptions; the contract applies to it. -/
theorem open_reception_no_pvz_check_witness :
    receptionsOf storeOpen1 7 = [] ∧ pvzIdExists storeOpen1 7 = false ∧
      openReceptionNoCheckSpec storeOpen1 7 :=
  ⟨by decide, by decide, open_reception_no_pvz_check storeOpen1 7 (by decide)⟩

end PVZ

namespace PVZ

/-- A concrete store holding one pickup point (id 0) and nothing else. -/
def storePvzOnly : Store :=
  runTrace Store.empty [Action.createPvz CityType.moscow]

theorem openStep_start_none {s : Store} {p : Nat}
    (hg : get_last_reception_by_pvz s p = none) :
    openStep s p ThreadPC.start = (ThreadPC.ready, s) := by
  simp [openStep, hg]

theorem openStep_start_open {s : Store} {p : Nat} {r : ReceptionRow}
    (hg : get_last_reception_by_pvz s p = some r)
    (hs : r.status = ReceptionStatus.in_progress) :
    openStep s p ThreadPC.start =
      (ThreadPC.done (ApiOutcome.conflict "Есть незакрытая приемка"), s) := by
  simp [openStep, hg, hs]

theorem openStep_ready_ok {s : Store} {p : Nat}
    (hex : pvzIdExists s p = true) :
    openStep s p ThreadPC.ready =
      (ThreadPC.done (ApiOutcome.success "Приемка создана"),
       s.insertReception p ReceptionStatus.in_progress) := by
  simp [openStep, create_reception_for_pvz_ok hex]

theorem openStep_done (s : Store) (p : Nat) (o : ApiOutcome) :
    openStep s p (ThreadPC.done o) = (ThreadPC.done o, s) := rfl

theorem pvzIdExists_insertReception (s : Store) (q : Nat)
    (st : ReceptionStatus) (p : Nat) :
    pvzIdExists (s.insertReception q st) p = pvzIdExists s p := rfl

/-- C3 (counterexample): with one pickup point and no prior reception, the
interleaving check one, check two, insert one, insert two of two concurrent
open-reception calls lets BOTH calls succeed and leaves the point with two
open Reception rows: neither a transactional uniqueness constraint nor any
per-point serialization exists to make one of them fail. -/
theorem concurrent_open_both_succeed :
    (runRace 0 ⟨storePvzOnly, ThreadPC.start, ThreadPC.start⟩
        [false, true, false, true]).t1 =
      ThreadPC.done (ApiOutcome.success "Приемка создана") ∧
    (runRace 0 ⟨storePvzOnly, ThreadPC.start, ThreadPC.start⟩
        [false, true, false, true]).t2 =
      ThreadPC.done (ApiOutcome.success "Приемка создана") ∧
    countOpen (runRace 0 ⟨storePvzOnly, ThreadPC.start, ThreadPC.start⟩
        [false, true, false, true]).store 0 = 2 := by decide

/-- Outcomes of the two schedules of two concurrent open-reception calls
(used to state the amended C3): under the unserialized interleaving both
calls succeed and the open-row count rises by two (the invariant IS violated
by the race); only when the two calls happen to run back to back does
exactly one succeed while the other fails with the conflict rejection. -/
def openRaceSpec (s : Store) (p : Nat) : Prop :=
  ((runRace p ⟨s, ThreadPC.start, ThreadPC.start⟩ [false, true, false, true]).t1 =
     ThreadPC.done (ApiOutcome.success "Приемка создана") ∧
   (runRace p ⟨s, ThreadPC.start, ThreadPC.start⟩ [false, true, false, true]).t2 =
     ThreadPC.done (ApiOutcome.success "Приемка создана") ∧
   countOpen (runRace p ⟨s, ThreadPC.start, ThreadPC.start⟩
       [false, true, false, true]).store p = countOpen s p + 2) ∧
  ((runRace p ⟨s, ThreadPC.start, ThreadPC.start⟩ [false, false, true, true]).t1 =
     ThreadPC.done (ApiOutcome.success "Приемка создана") ∧
   (runRace p ⟨s, ThreadPC.start, ThreadPC.start⟩ [false, false, true, true]).t2 =
     ThreadPC.done (ApiOutcome.conflict "Есть незакрытая приемка") ∧
   countOpen (runRace p ⟨s, ThreadPC.start, ThreadPC.start⟩
       [false, false, true, true]).store p = countOpen s p + 1)

/-- C3 (amended): for every store in which the pickup point exists and has
no reception rows, two concurrent open-reception calls whose guard reads
both precede both inserts BOTH succeed, adding two open receptions — the
check-then-act race is not closed by any constraint or lock; exactly one
succeeds (the other failing with the conflict rejection) only under the
serialized schedule. -/
theorem concurrent_open_race (s : Store) (p : Nat)
    (hnone : receptionsOf s p = []) (hex : pvzIdExists s p = true) :
    openRaceSpec s p := by
  have hg : get_last_reception_by_pvz s p = none := by
    show maxByDateTimeR (receptionsOf s p) = none
    rw [hnone]; rfl
  have e1 := openStep_start_none hg
  have e2 := openStep_ready_ok hex
  have hex1 : pvzIdExists (s.insertReception p ReceptionStatus.in_progress) p = true := by
    rw [pvzIdExists_insertReception]; exact hex
  have e3 := openStep_ready_ok hex1
  have hg1 : get_last_reception_by_pvz
      (s.insertReception p ReceptionStatus.in_progress) p =
      some ⟨s.nextId, p, s.clock, ReceptionStatus.in_progress⟩ := by
    show maxByDateTimeR _ = _
    rw [receptionsOf_insertReception_self, hnone]
    exact firstByDateTimeDesc_singleton _ _
  have e4 := openStep_start_open hg1 rfl
  constructor
  · refine ⟨?_, ?_, ?_⟩ <;>
      simp only [runRace, e1, e2, e3, openStep_done,
        countOpen_insertReception] <;> simp
  · refine ⟨?_, ?_, ?_⟩ <;>
      simp only [runRace, e1, e2, e4, openStep_done,
        countOpen_insertReception] <;> simp

/-- C3 (witness store facts for the amended theorem). -/
theorem concurrent_open_race_witness :
    receptionsOf storePvzOnly 0 = [] ∧ pvzIdExists storePvzOnly 0 = true ∧
      openRaceSpec storePvzOnly 0 :=
  ⟨by decide, by decide, concurrent_open_race storePvzOnly 0 (by decide) (by decide)⟩

end PVZ


namespace PVZ

/-! Counting helpers for primary-key deletion. -/

theorem length_filter_not_add {α : Type} (p : α → Bool) (l : List α) :
    (l.filter (fun a => !(p a))).length + l.countP p = l.length := by
  induction l with
  | nil => rfl
  | cons a l ih =>
      cases hpa : p a with
      | true =>
          have h1 : (a :: l).filter (fun x => !(p x)) = l.filter (fun x => !(p x)) := by
            simp [List.filter_cons, hpa]
          have h2 : (a :: l).countP p = l.countP p + 1 := by
            simp [List.countP_cons, hpa]
          rw [h1, h2, List.length_cons]
          omega
      | false =>
          have h1 : (a :: l).filter (fun x => !(p x)) =
              a :: l.filter (fun x => !(p x)) := by
            simp [List.filter_cons, hpa]
          have h2 : (a :: l).countP p = l.countP p := by
            simp [List.countP_cons, hpa]
          rw [h1, h2, List.length_cons, List.length_cons]
          omega

theorem countP_key_eq_one {α : Type} (f : α → Nat) {l : List α} {a : α}
    (hn : (l.map f).Nodup) (hmem : a ∈ l) :
    l.countP (fun x => f x == f a) = 1 := by
  induction l with
  | nil => exact absurd hmem (List.not_mem_nil a)
  | cons x xs ih =>
      rw [List.map_cons, List.nodup_cons] at hn
      rw [List.countP_cons]
      rcases List.mem_cons.mp hmem with rfl | hmem
      · have hz : xs.countP (fun y => f y == f a) = 0 := by
          rw [List.countP_eq_zero]
          intro y hy hfy
          exact hn.1 (List.mem_map.mpr ⟨y, hy, beq_iff_eq.mp hfy⟩)
        simp [hz]
      · have hfa : f a ∈ xs.map f := List.mem_map.mpr ⟨a, hmem, rfl⟩
        have hfx : (f x == f a) = false := by
          rw [beq_eq_false_iff_ne]
          intro he
          exact hn.1 (he ▸ hfa)
        rw [ih hn.2 hmem, hfx]
        simp

end PVZ

namespace PVZ

/-- The frame contract of LIFO deletion (C9): on a reception with products
exactly one Product row is removed — one of maximal insertion timestamp in
that reception — and the rest of the store (other products, receptions,
pickup points, users, counters) is untouched; on an empty reception the
store is returned unchanged. -/
def deleteLastSpec (s : Store) (rid : Nat) : Prop :=
  (productsOf s rid = [] → delete_last_product_for_reception s rid = (none, s)) ∧
  (productsOf s rid ≠ [] →
     ∃ lp, (delete_last_product_for_reception s rid).1 = some lp ∧
       lp ∈ productsOf s rid ∧
       (∀ q ∈ productsOf s rid, q.dateTime ≤ lp.dateTime) ∧
       (delete_last_product_for_reception s rid).2.products.length + 1 =
         s.products.length ∧
       (∀ q ∈ s.products, q ≠ lp →
          q ∈ (delete_last_product_for_reception s rid).2.products) ∧
       (∀ q ∈ (delete_last_product_for_reception s rid).2.products,
          q ∈ s.products ∧ q ≠ lp) ∧
       (delete_last_product_for_reception s rid).2.receptions = s.receptions ∧
       (delete_last_product_for_reception s rid).2.pvzs = s.pvzs ∧
       (delete_last_product_for_reception s rid).2.users = s.users ∧
       (delete_last_product_for_reception s rid).2.nextId = s.nextId ∧
       (delete_last_product_for_reception s rid).2.clock = s.clock)

/-- C9: for every well-formed store, `delete_last_product_for_reception`
removes exactly the latest-timestamped product of the reception and nothing
else; with no products it is the identity. -/
theorem delete_last_product_frame (s : Store) (rid : Nat) (hWF : WF s) :
    deleteLastSpec s rid := by
  obtain ⟨h1, h2, h3, h4, h5, h6, h7, h8, h9⟩ := hWF
  constructor
  · intro hempty
    unfold delete_last_product_for_reception
    rw [hempty]
    rfl
  · intro hne
    cases hlp : maxByDateTimeP (productsOf s rid) with
    | none =>
        exact absurd ((firstByDateTimeDesc_eq_none_iff _ _).mp hlp) hne
    | some lp =>
        have hdel : delete_last_product_for_reception s rid =
            (some lp, s.deleteProduct lp) := by
          unfold delete_last_product_for_reception
          rw [hlp]
        have hlp1 : firstByDateTimeDesc (fun q : ProductRow => q.dateTime)
            (productsOf s rid) = some lp := hlp
        have hmem : lp ∈ productsOf s rid :=
          firstByDateTimeDesc_mem (fun q => q.dateTime) _ lp hlp1
        have hmemP : lp ∈ s.products := (List.mem_filter.mp hmem).1
        have hub : ∀ q ∈ productsOf s rid, q.dateTime ≤ lp.dateTime :=
          firstByDateTimeDesc_ub (fun q => q.dateTime) _ lp hlp1
        have hinj := List.inj_on_of_nodup_map h2
        refine ⟨lp, by rw [hdel], hmem, hub, ?_, ?_, ?_, by rw [hdel]; rfl,
          by rw [hdel]; rfl, by rw [hdel]; rfl, by rw [hdel]; rfl,
          by rw [hdel]; rfl⟩
        · rw [hdel]
          show (s.products.filter (fun q => !(q.id == lp.id))).length + 1 =
            s.products.length
          have hcnt : s.products.countP (fun q => q.id == lp.id) = 1 :=
            countP_key_eq_one (fun q => q.id) h2 hmemP
          have := length_filter_not_add (fun q => q.id == lp.id) s.products
          omega
        · intro q hq hqlp
          rw [hdel]
          show q ∈ s.products.filter (fun x => !(x.id == lp.id))
          rw [List.mem_filter]
          refine ⟨hq, ?_⟩
          have : q.id ≠ lp.id := fun he => hqlp (hinj hq hmemP he)
          simp [this]
        · intro q hq
          rw [hdel] at hq
          have hq1 : q ∈ s.products.filter (fun x => !(x.id == lp.id)) := hq
          rw [List.mem_filter] at hq1
          refine ⟨hq1.1, ?_⟩
          intro he
          subst he
          simp at hq1

/-- A concrete reachable state: pickup point 0, open reception 1, and three
products (ids 2, 3, 4) added in order. -/
def storeProducts3 : Store :=
  runTrace Store.empty
    [Action.createPvz CityType.moscow, Action.openReception 0,
     Action.addProduct 0 ProductType.electonic,
     Action.addProduct 0 ProductType.clothes,
     Action.addProduct 0 ProductType.shoes]

/-- C9 (witness store facts). -/
theorem delete_last_product_frame_witness :
    WF storeProducts3 ∧ deleteLastSpec storeProducts3 1 :=
  ⟨by decide, delete_last_product_frame storeProducts3 1 (by decide)⟩

end PVZ

namespace PVZ

/-! LIFO removal: stepwise characterization. -/

theorem get_last_deleteProduct (s : Store) (lp : ProductRow) (p : Nat) :
    get_last_reception_by_pvz (s.deleteProduct lp) p =
      get_last_reception_by_pvz s p := rfl

theorem productsOf_deleteProduct (s : Store) (lp : ProductRow) (rid : Nat) :
    productsOf (s.deleteProduct lp) rid =
      (productsOf s rid).filter (fun q => !(q.id == lp.id)) := by
  unfold productsOf Store.deleteProduct
  rw [List.filter_filter, List.filter_filter]
  congr 1
  funext a
  exact Bool.and_comm _ _

theorem maxByDateTimeP_two {A B : ProductRow} (hAB : A.dateTime < B.dateTime) :
    maxByDateTimeP [A, B] = some B := by
  show firstByDateTimeDesc (fun q : ProductRow => q.dateTime) [A, B] = some B
  simp [firstByDateTimeDesc, List.foldl_cons, List.foldl_nil, pickLater, hAB]

theorem maxByDateTimeP_three {A B C : ProductRow}
    (hAB : A.dateTime < B.dateTime) (hBC : B.dateTime < C.dateTime) :
    maxByDateTimeP [A, B, C] = some C := by
  show firstByDateTimeDesc (fun q : ProductRow => q.dateTime) [A, B, C] = some C
  simp [firstByDateTimeDesc, List.foldl_cons, List.foldl_nil, pickLater, hAB, hBC]

/-- The LIFO behavior of repeated remove-last calls on a reception that
holds products A, B, C inserted in that order (C5): the three removals
return C, then B, then A, each deleting exactly that row, and once the
reception is empty every further call reports the "no products left"
success — never an error — and leaves the store unchanged. -/
def lifoSpec (s : Store) (p : Nat) (r : ReceptionRow) (A B C : ProductRow) : Prop :=
  api_delete_last_product s p =
    (ApiOutcome.success "Товар удален", some C, s.deleteProduct C) ∧
  productsOf (s.deleteProduct C) r.id = [A, B] ∧
  api_delete_last_product (s.deleteProduct C) p =
    (ApiOutcome.success "Товар удален", some B,
     (s.deleteProduct C).deleteProduct B) ∧
  productsOf ((s.deleteProduct C).deleteProduct B) r.id = [A] ∧
  api_delete_last_product ((s.deleteProduct C).deleteProduct B) p =
    (ApiOutcome.success "Товар удален", some A,
     ((s.deleteProduct C).deleteProduct B).deleteProduct A) ∧
  productsOf (((s.deleteProduct C).deleteProduct B).deleteProduct A) r.id = [] ∧
  api_delete_last_product
      (((s.deleteProduct C).deleteProduct B).deleteProduct A) p =
    (ApiOutcome.success "Не осталось товаров", none,
     ((s.deleteProduct C).deleteProduct B).deleteProduct A) ∧
  (∀ n, (fun st => (api_delete_last_product st p).2.2)^[n]
      (((s.deleteProduct C).deleteProduct B).deleteProduct A) =
    ((s.deleteProduct C).deleteProduct B).deleteProduct A)

/-- C5: on a well-formed store whose latest reception for the point is open
and holds exactly the products A, B, C with strictly increasing insertion
timestamps, remove-last removes C, then B, then A (returning each removed
product), and afterwards every call returns the "none"/no-products success
with the store unchanged. -/
theorem remove_last_lifo (s : Store) (p : Nat) (r : ReceptionRow)
    (A B C : ProductRow) (hWF : WF s)
    (hg : get_last_reception_by_pvz s p = some r)
    (hs : r.status = ReceptionStatus.in_progress)
    (hprod : productsOf s r.id = [A, B, C])
    (hAB : A.dateTime < B.dateTime) (hBC : B.dateTime < C.dateTime) :
    lifoSpec s p r A B C := by
  obtain ⟨h1, h2, h3, h4, h5, h6, h7, h8, h9⟩ := hWF
  have hsub : List.Sublist (productsOf s r.id) s.products :=
    List.filter_sublist _
  have hnod : ((productsOf s r.id).map (fun q => q.id)).Nodup :=
    List.Nodup.sublist (List.Sublist.map _ hsub) h2
  rw [hprod] at hnod
  simp only [List.map_cons, List.map_nil, List.nodup_cons, List.mem_cons,
    List.mem_singleton, List.not_mem_nil, List.nodup_nil, and_true,
    not_or] at hnod
  obtain ⟨⟨hab, hac⟩, hbc, -⟩ := hnod
  have hACb : (A.id == C.id) = false := beq_eq_false_iff_ne.mpr hac.1
  have hBCb : (B.id == C.id) = false := beq_eq_false_iff_ne.mpr hbc.1
  have hABb : (A.id == B.id) = false := beq_eq_false_iff_ne.mpr hab
  have m1 : maxByDateTimeP (productsOf s r.id) = some C := by
    rw [hprod]; exact maxByDateTimeP_three hAB hBC
  have st1 := api_delete_last_product_of_some hg hs m1
  have p1 : productsOf (s.deleteProduct C) r.id = [A, B] := by
    rw [productsOf_deleteProduct, hprod]
    simp [List.filter_cons, hACb, hBCb]
  have hg2 : get_last_reception_by_pvz (s.deleteProduct C) p = some r := hg
  have m2 : maxByDateTimeP (productsOf (s.deleteProduct C) r.id) = some B := by
    rw [p1]; exact maxByDateTimeP_two hAB
  have st2 := api_delete_last_product_of_some hg2 hs m2
  have p2 : productsOf ((s.deleteProduct C).deleteProduct B) r.id = [A] := by
    rw [productsOf_deleteProduct, p1]
    simp [List.filter_cons, hABb]
  have hg3 : get_last_reception_by_pvz
      ((s.deleteProduct C).deleteProduct B) p = some r := hg
  have m3 : maxByDateTimeP
      (productsOf ((s.deleteProduct C).deleteProduct B) r.id) = some A := by
    rw [p2]; exact firstByDateTimeDesc_singleton _ _
  have st3 := api_delete_last_product_of_some hg3 hs m3
  have p3 : productsOf
      (((s.deleteProduct C).deleteProduct B).deleteProduct A) r.id = [] := by
    rw [productsOf_deleteProduct, p2]
    simp [List.filter_cons]
  have hg4 : get_last_reception_by_pvz
      (((s.deleteProduct C).deleteProduct B).deleteProduct A) p = some r := hg
  have m4 : maxByDateTimeP (productsOf
      (((s.deleteProduct C).deleteProduct B).deleteProduct A) r.id) = none := by
    rw [p3]; rfl
  have st4 := api_delete_last_product_of_max_none hg4 hs m4
  refine ⟨st1, p1, st2, p2, st3, p3, st4, ?_⟩
  intro n
  induction n with
  | zero => rfl
  | succ n ih =>
      rw [Function.iterate_succ_apply, st4]
      exact ih

/-- C5 (witness store facts): in the three-product store, the products with
ids 2, 3, 4 play the roles of A, B, C. -/
theorem remove_last_lifo_witness :
    WF storeProducts3 ∧
    get_last_reception_by_pvz storeProducts3 0 =
      some ⟨1, 0, 1, ReceptionStatus.in_progress⟩ ∧
    productsOf storeProducts3 1 =
      [⟨2, 1, 2, ProductType.electonic⟩, ⟨3, 1, 3, ProductType.clothes⟩,
       ⟨4, 1, 4, ProductType.shoes⟩] ∧
    lifoSpec storeProducts3 0 ⟨1, 0, 1, ReceptionStatus.in_progress⟩
      ⟨2, 1, 2, ProductType.electonic⟩ ⟨3, 1, 3, ProductType.clothes⟩
      ⟨4, 1, 4, ProductType.shoes⟩ :=
  ⟨by decide, by decide, by decide,
   remove_last_lifo storeProducts3 0 ⟨1, 0, 1, ReceptionStatus.in_progress⟩
     ⟨2, 1, 2, ProductType.electonic⟩ ⟨3, 1, 3, ProductType.clothes⟩
     ⟨4, 1, 4, ProductType.shoes⟩ (by decide) (by decide) (by decide)
     (by decide) (by decide) (by decide)⟩

end PVZ

namespace PVZ

/-! The listing query: selection, ordering and pagination (C7). -/

theorem insertDesc_of_all_lt {x : ReceptionRow} :
    ∀ {m : List ReceptionRow}, (∀ b ∈ m, x.dateTime < b.dateTime) →
      insertDesc x m = m ++ [x] := by
  intro m
  induction m with
  | nil => intro _; rfl
  | cons b bs ih =>
      intro h
      have hxb : x.dateTime < b.dateTime := h b (List.mem_cons_self b bs)
      have hnb : ¬ b.dateTime < x.dateTime := Nat.lt_asymm hxb
      show (if b.dateTime < x.dateTime then x :: b :: bs else b :: insertDesc x bs)
        = b :: bs ++ [x]
      rw [if_neg hnb, ih (fun c hc => h c (List.mem_cons_of_mem b hc))]
      rfl

theorem sortByDateTimeDesc_of_sorted :
    ∀ {l : List ReceptionRow},
      List.Pairwise (fun a b : ReceptionRow => a.dateTime < b.dateTime) l →
      sortByDateTimeDesc l = l.reverse := by
  intro l
  induction l with
  | nil => intro _; rfl
  | cons x xs ih =>
      intro h
      rw [List.pairwise_cons] at h
      show insertDesc x (sortByDateTimeDesc xs) = (x :: xs).reverse
      rw [ih h.2, insertDesc_of_all_lt, List.reverse_cons]
      intro b hb
      exact h.1 b (List.mem_reverse.mp hb)

/-- The listing contract of C7: the returned window is the page-sized slice,
at offset (page-1)*limit, of the date-filtered open receptions sorted by
open-timestamp descending; the filter keeps exactly the rows with status
open and timestamp within the inclusive [start, end] range; and the sorted
sequence is strictly descending in timestamp. -/
def listingSpec (s : Store) (q : PVZListParams) : Prop :=
  listedReceptions s q =
    (((s.receptions.filter (matchesListing q)).reverse).drop
      ((q.page - 1) * q.limit)).take q.limit ∧
  (∀ r, r ∈ s.receptions.filter (matchesListing q) ↔
     (r ∈ s.receptions ∧ r.status = ReceptionStatus.in_progress ∧
      q.start_date ≤ r.dateTime ∧ r.dateTime ≤ q.end_date)) ∧
  List.Pairwise (fun a b : ReceptionRow => b.dateTime < a.dateTime)
    ((s.receptions.filter (matchesListing q)).reverse)

/-- C7: for every well-formed store and valid query, the listing selects
exactly the open receptions with open-timestamp in [startDate, endDate]
(inclusive), sorts them by open-timestamp descending, and returns the window
of `limit` receptions starting at offset (page-1)*limit. -/
theorem listing_select_sort_paginate (s : Store) (q : PVZListParams)
    (hWF : WF s) (hdates : q.start_date ≤ q.end_date) (hpage : 1 ≤ q.page)
    (hlimit : 1 ≤ q.limit ∧ q.limit ≤ 30) : listingSpec s q := by
  obtain ⟨h1, h2, h3, h4, h5, h6, h7, h8, h9⟩ := hWF
  have hpair : List.Pairwise (fun a b : ReceptionRow => a.dateTime < b.dateTime)
      (s.receptions.filter (matchesListing q)) :=
    List.Pairwise.sublist (List.filter_sublist _) h8
  refine ⟨?_, ?_, ?_⟩
  · unfold listedReceptions
    rw [sortByDateTimeDesc_of_sorted hpair]
  · intro r
    rw [List.mem_filter]
    unfold matchesListing
    simp [Bool.and_eq_true, decide_eq_true_eq, and_assoc]
  · rw [List.pairwise_reverse]
    exact hpair

/-- C7 (witness store facts): the three-product store queried over the full
window. -/
theorem listing_select_sort_paginate_witness :
    WF storeProducts3 ∧ (0 : Nat) ≤ 10 ∧ 1 ≤ (1 : Nat) ∧
      (1 ≤ (10 : Nat) ∧ (10 : Nat) ≤ 30) ∧
      listingSpec storeProducts3 ⟨0, 10, 1, 10⟩ :=
  ⟨by decide, by decide, by decide, by decide,
   listing_select_sort_paginate storeProducts3 ⟨0, 10, 1, 10⟩ (by decide)
     (by decide) (by decide) (by decide)⟩

end PVZ

namespace PVZ

/-! The per-pickup-point grouping dict (C8). -/

/-- The keys (pickup-point ids) of the grouping dict, in insertion order. -/
def groupKeys (g : List PvzGroup) : List Nat := g.map Prod.fst

/-- The value stored under a key of the grouping dict (empty when the key is
absent). -/
def entryVal (g : List PvzGroup) (k : Nat) : List (Nat × Nat) :=
  match g.find? (fun e => e.1 == k) with
  | some e => e.2
  | none => []

/-- The (reception id, product id) pairs of all products of all receptions
of the list that belong to pickup point `k`, in iteration order — the
reference value the grouping dict must hold under key `k`. -/
def pairsFor (s : Store) (recs : List ReceptionRow) (k : Nat) :
    List (Nat × Nat) :=
  (recs.filter (fun r => r.pvzId == k)).flatMap
    (fun r => (productsOf s r.id).map (fun q => (r.id, q.id)))

theorem entryVal_addPair_self (g : List PvzGroup) (k : Nat) (pr : Nat × Nat) :
    entryVal (addPair g k pr) k = entryVal g k ++ [pr] := by
  induction g with
  | nil => simp [addPair, entryVal, List.find?]
  | cons e rest ih =>
      obtain ⟨k1, v⟩ := e
      cases hk : (k1 == k) with
      | true => simp [addPair, entryVal, List.find?, hk]
      | false => simp [addPair, entryVal, List.find?, hk, entryVal] at ih ⊢; exact ih

theorem entryVal_addPair_other (g : List PvzGroup) (k : Nat) (pr : Nat × Nat)
    {k0 : Nat} (hne : k0 ≠ k) :
    entryVal (addPair g k pr) k0 = entryVal g k0 := by
  have hkk0 : (k == k0) = false := beq_eq_false_iff_ne.mpr (fun h => hne h.symm)
  induction g with
  | nil => simp [addPair, entryVal, List.find?, hkk0]
  | cons e rest ih =>
      obtain ⟨k1, v⟩ := e
      cases hk : (k1 == k) with
      | true =>
          have hk1 : k1 = k := beq_iff_eq.mp hk
          subst hk1
          simp [addPair, entryVal, List.find?, hkk0]
      | false =>
          cases hk10 : (k1 == k0) with
          | true => simp [addPair, entryVal, List.find?, hk, hk10]
          | false => simp [addPair, entryVal, List.find?, hk, hk10] at ih ⊢; exact ih

theorem mem_groupKeys_addPair (g : List PvzGroup) (k : Nat) (pr : Nat × Nat)
    (k0 : Nat) :
    k0 ∈ groupKeys (addPair g k pr) ↔ k0 ∈ groupKeys g ∨ k0 = k := by
  induction g with
  | nil => simp [addPair, groupKeys]
  | cons e rest ih =>
      obtain ⟨k1, v⟩ := e
      cases hk : (k1 == k) with
      | true =>
          have hk1 : k1 = k := beq_iff_eq.mp hk
          subst hk1
          simp only [addPair, hk, if_true, groupKeys, List.map_cons,
            List.mem_cons]
          constructor
          · intro h; exact Or.inl h
          · rintro (h | rfl)
            · exact h
            · exact Or.inl rfl
      | false =>
          simp only [addPair, hk, Bool.false_eq_true, if_false, groupKeys,
            List.map_cons, List.mem_cons] at ih ⊢
          rw [ih]
          tauto

theorem groupKeys_nodup_addPair {g : List PvzGroup} (k : Nat) (pr : Nat × Nat)
    (hn : (groupKeys g).Nodup) : (groupKeys (addPair g k pr)).Nodup := by
  induction g with
  | nil => simp [addPair, groupKeys]
  | cons e rest ih =>
      obtain ⟨k1, v⟩ := e
      rw [groupKeys, List.map_cons, List.nodup_cons] at hn
      cases hk : (k1 == k) with
      | true =>
          simp only [addPair, hk, if_true]
          rw [groupKeys, List.map_cons, List.nodup_cons]
          exact ⟨hn.1, hn.2⟩
      | false =>
          have hk1 : k1 ≠ k := by
            intro h; rw [h] at hk; simp at hk
          simp only [addPair, hk, Bool.false_eq_true, if_false]
          rw [groupKeys, List.map_cons, List.nodup_cons]
          constructor
          · show ¬ (k1, v).1 ∈ groupKeys (addPair rest k pr)
            rw [mem_groupKeys_addPair]
            rintro (h | h)
            · exact hn.1 h
            · exact hk1 h
          · exact ih hn.2

theorem addPair_vals_ne_nil {g : List PvzGroup} (k : Nat) (pr : Nat × Nat)
    (hv : ∀ e ∈ g, e.2 ≠ []) : ∀ e ∈ addPair g k pr, e.2 ≠ [] := by
  induction g with
  | nil =>
      intro e he
      rcases List.mem_singleton.mp he with rfl
      simp
  | cons e0 rest ih =>
      obtain ⟨k1, v⟩ := e0
      cases hk : (k1 == k) with
      | true =>
          intro e he
          simp only [addPair, hk, if_true] at he
          rcases List.mem_cons.mp he with rfl | he
          · simp
          · exact hv e (List.mem_cons_of_mem _ he)
      | false =>
          intro e he
          simp only [addPair, hk, Bool.false_eq_true, if_false] at he
          rcases List.mem_cons.mp he with rfl | he
          · exact hv _ (List.mem_cons_self _ _)
          · exact ih (fun e1 he1 => hv e1 (List.mem_cons_of_mem _ he1)) e he

theorem mem_groupKeys_iff_entryVal {g : List PvzGroup}
    (hv : ∀ e ∈ g, e.2 ≠ []) (k : Nat) :
    k ∈ groupKeys g ↔ entryVal g k ≠ [] := by
  induction g with
  | nil => simp [groupKeys, entryVal, List.find?]
  | cons e rest ih =>
      obtain ⟨k1, v⟩ := e
      cases hk : (k1 == k) with
      | true =>
          have hk1 : k1 = k := beq_iff_eq.mp hk
          subst hk1
          have hv1 : v ≠ [] := hv _ (List.mem_cons_self _ _)
          have he : entryVal ((k1, v) :: rest) k1 = v := by
            simp [entryVal, List.find?]
          rw [he]
          simp [groupKeys, hv1]
      | false =>
          have hk1 : k1 ≠ k := by
            intro h; rw [h] at hk; simp at hk
          simp only [groupKeys, List.map_cons, List.mem_cons, entryVal,
            List.find?, hk]
          rw [groupKeys, entryVal] at ih
          constructor
          · rintro (rfl | h)
            · exact absurd rfl hk1
            · exact (ih (fun e1 he1 => hv e1 (List.mem_cons_of_mem _ he1))).mp h
          · intro h
            exact Or.inr
              ((ih (fun e1 he1 => hv e1 (List.mem_cons_of_mem _ he1))).mpr h)

theorem entryVal_of_mem {g : List PvzGroup} {k : Nat} {v : List (Nat × Nat)}
    (hn : (groupKeys g).Nodup) (hmem : (k, v) ∈ g) : entryVal g k = v := by
  induction g with
  | nil => exact absurd hmem (List.not_mem_nil _)
  | cons e rest ih =>
      obtain ⟨k1, v1⟩ := e
      rw [groupKeys, List.map_cons, List.nodup_cons] at hn
      rcases List.mem_cons.mp hmem with he | hmem
      · cases he
        simp [entryVal, List.find?]
      · cases hk : (k1 == k) with
        | true =>
            have hk1 : k1 = k := beq_iff_eq.mp hk
            subst hk1
            have : k1 ∈ groupKeys rest :=
              List.mem_map.mpr ⟨(k1, v), hmem, rfl⟩
            exact absurd this hn.1
        | false =>
            simp only [entryVal, List.find?, hk]
            rw [entryVal] at ih
            exact ih hn.2 hmem

end PVZ

namespace PVZ

/-! The inner product loop of the grouping, generalized. -/

theorem foldl_addPair_entryVal_self {α : Type} (f : α → Nat × Nat) (k : Nat) :
    ∀ (ps : List α) (g : List PvzGroup),
      entryVal (ps.foldl (fun g0 q => addPair g0 k (f q)) g) k =
        entryVal g k ++ ps.map f := by
  intro ps
  induction ps with
  | nil => intro g; simp
  | cons q ps ih =>
      intro g
      rw [List.foldl_cons, ih, entryVal_addPair_self, List.map_cons,
        List.append_assoc, List.singleton_append]

theorem foldl_addPair_entryVal_other {α : Type} (f : α → Nat × Nat) (k : Nat)
    {k0 : Nat} (hne : k0 ≠ k) :
    ∀ (ps : List α) (g : List PvzGroup),
      entryVal (ps.foldl (fun g0 q => addPair g0 k (f q)) g) k0 =
        entryVal g k0 := by
  intro ps
  induction ps with
  | nil => intro g; rfl
  | cons q ps ih =>
      intro g
      rw [List.foldl_cons, ih, entryVal_addPair_other _ _ _ hne]

theorem foldl_addPair_keys_nodup {α : Type} (f : α → Nat × Nat) (k : Nat) :
    ∀ (ps : List α) {g : List PvzGroup}, (groupKeys g).Nodup →
      (groupKeys (ps.foldl (fun g0 q => addPair g0 k (f q)) g)).Nodup := by
  intro ps
  induction ps with
  | nil => intro g hn; exact hn
  | cons q ps ih =>
      intro g hn
      rw [List.foldl_cons]
      exact ih (groupKeys_nodup_addPair _ _ hn)

theorem foldl_addPair_vals_ne_nil {α : Type} (f : α → Nat × Nat) (k : Nat) :
    ∀ (ps : List α) {g : List PvzGroup}, (∀ e ∈ g, e.2 ≠ []) →
      ∀ e ∈ ps.foldl (fun g0 q => addPair g0 k (f q)) g, e.2 ≠ [] := by
  intro ps
  induction ps with
  | nil => intro g hv; exact hv
  | cons q ps ih =>
      intro g hv
      rw [List.foldl_cons]
      exact ih (addPair_vals_ne_nil _ _ hv)

theorem pairsFor_cons (s : Store) (rec : ReceptionRow)
    (rest : List ReceptionRow) (k : Nat) :
    pairsFor s (rec :: rest) k =
      (if (rec.pvzId == k) = true
       then (productsOf s rec.id).map (fun q => (rec.id, q.id)) else []) ++
        pairsFor s rest k := by
  unfold pairsFor
  rw [List.filter_cons]
  cases h : (rec.pvzId == k) with
  | true => simp [List.flatMap_cons]
  | false => simp

theorem groupStep_eq (s : Store) (g0 : List PvzGroup) (rec : ReceptionRow) :
    (if (productsOf s rec.id).isEmpty then g0
     else (productsOf s rec.id).foldl
       (fun g1 p => addPair g1 rec.pvzId (rec.id, p.id)) g0) =
      (productsOf s rec.id).foldl
        (fun g1 p => addPair g1 rec.pvzId (rec.id, p.id)) g0 := by
  cases h : (productsOf s rec.id).isEmpty with
  | true =>
      rw [if_pos rfl]
      rw [List.isEmpty_iff.mp h]
      rfl
  | false => rw [if_neg]; simp [h]

theorem groupByPvz_fold (s : Store) :
    ∀ (recs : List ReceptionRow) (g : List PvzGroup),
      (groupKeys g).Nodup → (∀ e ∈ g, e.2 ≠ []) →
      (groupKeys (recs.foldl (fun g0 rec =>
          let prods := productsOf s rec.id
          if prods.isEmpty then g0
          else prods.foldl (fun g1 p => addPair g1 rec.pvzId (rec.id, p.id)) g0)
        g)).Nodup ∧
      (∀ e ∈ recs.foldl (fun g0 rec =>
          let prods := productsOf s rec.id
          if prods.isEmpty then g0
          else prods.foldl (fun g1 p => addPair g1 rec.pvzId (rec.id, p.id)) g0)
        g, e.2 ≠ []) ∧
      (∀ k, entryVal (recs.foldl (fun g0 rec =>
          let prods := productsOf s rec.id
          if prods.isEmpty then g0
          else prods.foldl (fun g1 p => addPair g1 rec.pvzId (rec.id, p.id)) g0)
        g) k = entryVal g k ++ pairsFor s recs k) := by
  intro recs
  induction recs with
  | nil =>
      intro g hn hv
      refine ⟨hn, hv, ?_⟩
      intro k
      simp [pairsFor]
  | cons rec rest ih =>
      intro g hn hv
      simp only [List.foldl_cons]
      rw [groupStep_eq]
      have hn1 := foldl_addPair_keys_nodup (fun p : ProductRow => (rec.id, p.id))
        rec.pvzId (productsOf s rec.id) hn
      have hv1 := foldl_addPair_vals_ne_nil (fun p : ProductRow => (rec.id, p.id))
        rec.pvzId (productsOf s rec.id) hv
      obtain ⟨a1, a2, a3⟩ := ih _ hn1 hv1
      refine ⟨a1, a2, ?_⟩
      intro k
      rw [a3 k, pairsFor_cons]
      cases hk : (rec.pvzId == k) with
      | true =>
          have hk1 : rec.pvzId = k := beq_iff_eq.mp hk
          subst hk1
          rw [foldl_addPair_entryVal_self, if_pos (by simp), List.append_assoc]
      | false =>
          have hk1 : k ≠ rec.pvzId := by
            intro h; rw [h] at hk; simp at hk
          rw [foldl_addPair_entryVal_other _ _ hk1, if_neg, List.nil_append]
          simp [hk]

end PVZ

namespace PVZ

/-- The grouping contract of C8: in the listing output each pickup point
appears as at most one group (keys are duplicate-free); a pickup point
appears exactly when it owns a selected reception with at least one product;
each group's list is exactly the (reception id, product id) pairs of all
products of all selected receptions of that point; and selected receptions
with zero products contribute nothing (a point whose selected receptions are
all empty yields no group). -/
def groupingSpec (s : Store) (q : PVZListParams) : Prop :=
  (groupKeys (get_pvz_receptions_products s q)).Nodup ∧
  (∀ k, k ∈ groupKeys (get_pvz_receptions_products s q) ↔
     pairsFor s (listedReceptions s q) k ≠ []) ∧
  (∀ k v, (k, v) ∈ get_pvz_receptions_products s q →
     v = pairsFor s (listedReceptions s q) k) ∧
  (∀ k, pairsFor s (listedReceptions s q) k ≠ [] ↔
     ∃ r, r ∈ listedReceptions s q ∧ r.pvzId = k ∧ productsOf s r.id ≠ [])

/-- C8: the grouping loop of `get_pvz_receptions_products` emits exactly one
group per pickup point owning a selected reception with products, containing
exactly that point's (reception, product) pairs; empty receptions are
omitted. -/
theorem listing_groups (s : Store) (q : PVZListParams) : groupingSpec s q := by
  obtain ⟨a1, a2, a3⟩ :=
    groupByPvz_fold s (listedReceptions s q) [] (by simp [groupKeys]) (by simp)
  have hval : ∀ k, entryVal (groupByPvz s (listedReceptions s q)) k =
      pairsFor s (listedReceptions s q) k := by
    intro k
    have := a3 k
    rw [show entryVal [] k = [] from rfl, List.nil_append] at this
    exact this
  refine ⟨a1, ?_, ?_, ?_⟩
  · intro k
    rw [← hval k]
    exact mem_groupKeys_iff_entryVal a2 k
  · intro k v hmem
    rw [← hval k]
    exact (entryVal_of_mem a1 hmem).symm
  · intro k
    unfold pairsFor
    rw [Ne, List.flatMap_eq_nil_iff]
    push_neg
    constructor
    · rintro ⟨r, hr, hmap⟩
      rw [List.mem_filter] at hr
      refine ⟨r, hr.1, beq_iff_eq.mp hr.2, ?_⟩
      intro h0
      exact hmap (by rw [h0]; rfl)
    · rintro ⟨r, hr, hk, hprod⟩
      refine ⟨r, List.mem_filter.mpr ⟨hr, beq_iff_eq.mpr hk⟩, ?_⟩
      intro hmap
      exact hprod (List.map_eq_nil_iff.mp hmap)

/-- C8 (witness): on the three-product store the whole listing output is the
single group of pickup point 0 with its three pairs, matching the contract
at a concrete input. -/
theorem listing_groups_witness :
    groupingSpec storeProducts3 ⟨0, 10, 1, 10⟩ ∧
      get_pvz_receptions_products storeProducts3 ⟨0, 10, 1, 10⟩ =
        [(0, [(1, 2), (1, 3), (1, 4)])] :=
  ⟨listing_groups storeProducts3 ⟨0, 10, 1, 10⟩, by decide⟩

end PVZ

namespace PVZ

/-! One-way closure: no API call ever mutates or deletes a Reception row,
adds products to a closed reception, or reuses an existing id (C6). -/

theorem productsOf_insertReception (s : Store) (p : Nat)
    (st : ReceptionStatus) (rid : Nat) :
    productsOf (s.insertReception p st) rid = productsOf s rid := rfl

theorem productsOf_insertPvz (s : Store) (city : CityType) (rid : Nat) :
    productsOf (s.insertPvz city) rid = productsOf s rid := rfl

theorem productsOf_insertProduct_other (s : Store) {rid rid0 : Nat}
    (ty : ProductType) (hne : rid ≠ rid0) :
    productsOf (s.insertProduct rid ty) rid0 = productsOf s rid0 := by
  unfold productsOf Store.insertProduct
  rw [List.filter_append]
  simp [hne]

/-- Every Reception row survives every API call unchanged (there is no
UPDATE or DELETE on the reception table anywhere in the code). -/
theorem reception_persists (s : Store) (a : Action) {r : ReceptionRow}
    (hr : r ∈ s.receptions) : r ∈ (apiStep s a).2.receptions := by
  cases a with
  | createPvz city =>
      rw [show apiStep s (Action.createPvz city) = api_create_pvz s city from rfl]
      exact hr
  | openReception p =>
      rw [show apiStep s (Action.openReception p) = api_create_reception s p from rfl]
      cases hg : get_last_reception_by_pvz s p with
      | some r0 =>
          cases hs : r0.status with
          | in_progress => rw [api_create_reception_of_open hg hs]; exact hr
          | close =>
              cases hex : pvzIdExists s p with
              | true =>
                  rw [api_create_reception_of_closed hg hs hex]
                  exact List.mem_append_left _ hr
              | false => rw [api_create_reception_of_closed_fk hg hs hex]; exact hr
      | none =>
          cases hex : pvzIdExists s p with
          | true =>
              rw [api_create_reception_of_none hg hex]
              exact List.mem_append_left _ hr
          | false => rw [api_create_reception_of_none_fk hg hex]; exact hr
  | addProduct p ty =>
      rw [show apiStep s (Action.addProduct p ty) = api_create_product s p ty from rfl]
      cases hg : get_last_reception_by_pvz s p with
      | some r0 =>
          cases hs : r0.status with
          | in_progress =>
              have hex := receptionIdExists_of_mem (get_last_mem hg).1
              rw [api_create_product_of_open ty hg hs hex]
              exact hr
          | close => rw [api_create_product_of_closed ty hg hs]; exact hr
      | none => rw [api_create_product_of_none ty hg]; exact hr
  | removeLastProduct p =>
      rw [show apiStep s (Action.removeLastProduct p) =
        ((api_delete_last_product s p).1, (api_delete_last_product s p).2.2) from rfl]
      cases hg : get_last_reception_by_pvz s p with
      | some r0 =>
          cases hs : r0.status with
          | in_progress =>
              cases hlp : maxByDateTimeP (productsOf s r0.id) with
              | some lp => rw [api_delete_last_product_of_some hg hs hlp]; exact hr
              | none => rw [api_delete_last_product_of_max_none hg hs hlp]; exact hr
          | close => rw [api_delete_last_product_of_closed hg hs]; exact hr
      | none => rw [api_delete_last_product_of_none hg]; exact hr
  | closeReception p =>
      rw [show apiStep s (Action.closeReception p) = api_close_reception s p from rfl]
      cases hg : get_last_reception_by_pvz s p with
      | some r0 =>
          cases hs : r0.status with
          | in_progress =>
              cases hex : pvzIdExists s p with
              | true =>
                  rw [api_close_reception_of_open hg hs hex]
                  exact List.mem_append_left _ hr
              | false => rw [api_close_reception_of_open_fk hg hs hex]; exact hr
          | close => rw [api_close_reception_of_closed hg hs]; exact hr
      | none => rw [api_close_reception_of_none hg]; exact hr

/-- Any Reception row present after an API call is either an old row or the
freshly inserted one carrying the brand-new id `s.nextId`. -/
theorem reception_new_id (s : Store) (a : Action) {r2 : ReceptionRow}
    (hr2 : r2 ∈ (apiStep s a).2.receptions) :
    r2 ∈ s.receptions ∨ r2.id = s.nextId := by
  cases a with
  | createPvz city =>
      rw [show apiStep s (Action.createPvz city) = api_create_pvz s city from rfl] at hr2
      exact Or.inl hr2
  | openReception p =>
      rw [show apiStep s (Action.openReception p) = api_create_reception s p from rfl] at hr2
      cases hg : get_last_reception_by_pvz s p with
      | some r0 =>
          cases hs : r0.status with
          | in_progress =>
              rw [api_create_reception_of_open hg hs] at hr2; exact Or.inl hr2
          | close =>
              cases hex : pvzIdExists s p with
              | true =>
                  rw [api_create_reception_of_closed hg hs hex] at hr2
                  rcases List.mem_append.mp hr2 with h | h
                  · exact Or.inl h
                  · rcases List.mem_singleton.mp h with rfl; exact Or.inr rfl
              | false =>
                  rw [api_create_reception_of_closed_fk hg hs hex] at hr2
                  exact Or.inl hr2
      | none =>
          cases hex : pvzIdExists s p with
          | true =>
              rw [api_create_reception_of_none hg hex] at hr2
              rcases List.mem_append.mp hr2 with h | h
              · exact Or.inl h
              · rcases List.mem_singleton.mp h with rfl; exact Or.inr rfl
          | false =>
              rw [api_create_reception_of_none_fk hg hex] at hr2
              exact Or.inl hr2
  | addProduct p ty =>
      rw [show apiStep s (Action.addProduct p ty) = api_create_product s p ty from rfl] at hr2
      cases hg : get_last_reception_by_pvz s p with
      | some r0 =>
          cases hs : r0.status with
          | in_progress =>
              have hex := receptionIdExists_of_mem (get_last_mem hg).1
              rw [api_create_product_of_open ty hg hs hex] at hr2
              exact Or.inl hr2
          | close =>
              rw [api_create_product_of_closed ty hg hs] at hr2; exact Or.inl hr2
      | none => rw [api_create_product_of_none ty hg] at hr2; exact Or.inl hr2
  | removeLastProduct p =>
      rw [show apiStep s (Action.removeLastProduct p) =
        ((api_delete_last_product s p).1, (api_delete_last_product s p).2.2) from rfl] at hr2
      cases hg : get_last_reception_by_pvz s p with
      | some r0 =>
          cases hs : r0.status with
          | in_progress =>
              cases hlp : maxByDateTimeP (productsOf s r0.id) with
              | some lp =>
                  rw [api_delete_last_product_of_some hg hs hlp] at hr2
                  exact Or.inl hr2
              | none =>
                  rw [api_delete_last_product_of_max_none hg hs hlp] at hr2
                  exact Or.inl hr2
          | close =>
              rw [api_delete_last_product_of_closed hg hs] at hr2; exact Or.inl hr2
      | none => rw [api_delete_last_product_of_none hg] at hr2; exact Or.inl hr2
  | closeReception p =>
      rw [show apiStep s (Action.closeReception p) = api_close_reception s p from rfl] at hr2
      cases hg : get_last_reception_by_pvz s p with
      | some r0 =>
          cases hs : r0.status with
          | in_progress =>
              cases hex : pvzIdExists s p with
              | true =>
                  rw [api_close_reception_of_open hg hs hex] at hr2
                  rcases List.mem_append.mp hr2 with h | h
                  · exact Or.inl h
                  · rcases List.mem_singleton.mp h with rfl; exact Or.inr rfl
              | false =>
                  rw [api_close_reception_of_open_fk hg hs hex] at hr2
                  exact Or.inl hr2
          | close =>
              rw [api_close_reception_of_closed hg hs] at hr2; exact Or.inl hr2
      | none => rw [api_close_reception_of_none hg] at hr2; exact Or.inl hr2

/-- The id counter never decreases across an API call. -/
theorem nextId_mono (s : Store) (a : Action) :
    s.nextId ≤ (apiStep s a).2.nextId := by
  cases a with
  | createPvz city =>
      rw [show apiStep s (Action.createPvz city) = api_create_pvz s city from rfl]
      exact Nat.le_succ _
  | openReception p =>
      rw [show apiStep s (Action.openReception p) = api_create_reception s p from rfl]
      cases hg : get_last_reception_by_pvz s p with
      | some r0 =>
          cases hs : r0.status with
          | in_progress =>
              rw [api_create_reception_of_open hg hs]
          | close =>
              cases hex : pvzIdExists s p with
              | true =>
                  rw [api_create_reception_of_closed hg hs hex]; exact Nat.le_succ _
              | false =>
                  rw [api_create_reception_of_closed_fk hg hs hex]
      | none =>
          cases hex : pvzIdExists s p with
          | true => rw [api_create_reception_of_none hg hex]; exact Nat.le_succ _
          | false => rw [api_create_reception_of_none_fk hg hex]
  | addProduct p ty =>
      rw [show apiStep s (Action.addProduct p ty) = api_create_product s p ty from rfl]
      cases hg : get_last_reception_by_pvz s p with
      | some r0 =>
          cases hs : r0.status with
          | in_progress =>
              have hex := receptionIdExists_of_mem (get_last_mem hg).1
              rw [api_create_product_of_open ty hg hs hex]; exact Nat.le_succ _
          | close => rw [api_create_product_of_closed ty hg hs]
      | none => rw [api_create_product_of_none ty hg]
  | removeLastProduct p =>
      rw [show apiStep s (Action.removeLastProduct p) =
        ((api_delete_last_product s p).1, (api_delete_last_product s p).2.2) from rfl]
      cases hg : get_last_reception_by_pvz s p with
      | some r0 =>
          cases hs : r0.status with
          | in_progress =>
              cases hlp : maxByDateTimeP (productsOf s r0.id) with
              | some lp =>
                  rw [api_delete_last_product_of_some hg hs hlp]
                  exact Nat.le_refl _
              | none =>
                  rw [api_delete_last_product_of_max_none hg hs hlp]
          | close => rw [api_delete_last_product_of_closed hg hs]
      | none => rw [api_delete_last_product_of_none hg]
  | closeReception p =>
      rw [show apiStep s (Action.closeReception p) = api_close_reception s p from rfl]
      cases hg : get_last_reception_by_pvz s p with
      | some r0 =>
          cases hs : r0.status with
          | in_progress =>
              cases hex : pvzIdExists s p with
              | true => rw [api_close_reception_of_open hg hs hex]; exact Nat.le_succ _
              | false =>
                  rw [api_close_reception_of_open_fk hg hs hex]
          | close => rw [api_close_reception_of_closed hg hs]
      | none => rw [api_close_reception_of_none hg]

end PVZ

namespace PVZ

/-- No API call ever touches the products of a closed reception: products
are only inserted into (and deleted from) the latest reception, which must
be open, and a closed row can never be that reception. -/
theorem closed_products_frame (s : Store) (a : Action) {r : ReceptionRow}
    (hWF : WF s) (hr : r ∈ s.receptions)
    (hc : r.status = ReceptionStatus.close) :
    productsOf (apiStep s a).2 r.id = productsOf s r.id := by
  obtain ⟨h1, h2, h3, h4, h5, h6, h7, h8, h9⟩ := hWF
  cases a with
  | createPvz city =>
      rw [show apiStep s (Action.createPvz city) = api_create_pvz s city from rfl]
      rfl
  | openReception p =>
      rw [show apiStep s (Action.openReception p) = api_create_reception s p from rfl]
      cases hg : get_last_reception_by_pvz s p with
      | some r0 =>
          cases hs : r0.status with
          | in_progress => rw [api_create_reception_of_open hg hs]
          | close =>
              cases hex : pvzIdExists s p with
              | true => rw [api_create_reception_of_closed hg hs hex]; rfl
              | false => rw [api_create_reception_of_closed_fk hg hs hex]
      | none =>
          cases hex : pvzIdExists s p with
          | true => rw [api_create_reception_of_none hg hex]; rfl
          | false => rw [api_create_reception_of_none_fk hg hex]
  | addProduct p ty =>
      rw [show apiStep s (Action.addProduct p ty) = api_create_product s p ty from rfl]
      cases hg : get_last_reception_by_pvz s p with
      | some r0 =>
          cases hs : r0.status with
          | in_progress =>
              have hex := receptionIdExists_of_mem (get_last_mem hg).1
              rw [api_create_product_of_open ty hg hs hex]
              have hne : r0.id ≠ r.id := by
                intro he
                have := List.inj_on_of_nodup_map h1 (get_last_mem hg).1 hr he
                rw [this, hc] at hs
                exact ReceptionStatus.noConfusion hs
              exact productsOf_insertProduct_other s ty hne
          | close => rw [api_create_product_of_closed ty hg hs]
      | none => rw [api_create_product_of_none ty hg]
  | removeLastProduct p =>
      rw [show apiStep s (Action.removeLastProduct p) =
        ((api_delete_last_product s p).1, (api_delete_last_product s p).2.2) from rfl]
      cases hg : get_last_reception_by_pvz s p with
      | some r0 =>
          cases hs : r0.status with
          | in_progress =>
              cases hlp : maxByDateTimeP (productsOf s r0.id) with
              | some lp =>
                  rw [api_delete_last_product_of_some hg hs hlp]
                  show productsOf (s.deleteProduct lp) r.id = productsOf s r.id
                  have hne : r0.id ≠ r.id := by
                    intro he
                    have := List.inj_on_of_nodup_map h1 (get_last_mem hg).1 hr he
                    rw [this, hc] at hs
                    exact ReceptionStatus.noConfusion hs
                  have hlp1 : firstByDateTimeDesc (fun q : ProductRow => q.dateTime)
                      (productsOf s r0.id) = some lp := hlp
                  have hlpm : lp ∈ productsOf s r0.id :=
                    firstByDateTimeDesc_mem _ _ lp hlp1
                  rw [productsOf, List.mem_filter] at hlpm
                  rw [productsOf_deleteProduct]
                  apply List.filter_eq_self.mpr
                  intro q hq
                  rw [productsOf, List.mem_filter] at hq
                  have hqne : q.id ≠ lp.id := by
                    intro he
                    have heq := List.inj_on_of_nodup_map h2 hq.1 hlpm.1 he
                    have h01 : q.receptionId = r.id := beq_iff_eq.mp hq.2
                    have h02 : lp.receptionId = r0.id := beq_iff_eq.mp hlpm.2
                    rw [heq, h02] at h01
                    exact hne h01
                  simp [hqne]
              | none => rw [api_delete_last_product_of_max_none hg hs hlp]
          | close => rw [api_delete_last_product_of_closed hg hs]
      | none => rw [api_delete_last_product_of_none hg]
  | closeReception p =>
      rw [show apiStep s (Action.closeReception p) = api_close_reception s p from rfl]
      cases hg : get_last_reception_by_pvz s p with
      | some r0 =>
          cases hs : r0.status with
          | in_progress =>
              cases hex : pvzIdExists s p with
              | true => rw [api_close_reception_of_open hg hs hex]; rfl
              | false => rw [api_close_reception_of_open_fk hg hs hex]
          | close => rw [api_close_reception_of_closed hg hs]
      | none => rw [api_close_reception_of_none hg]

end PVZ

namespace PVZ

/-- Along any trace, a Reception row either predates the trace or carries an
id at least the starting id counter (ids are never reused). -/
theorem runTrace_reception_ids (tr : List Action) :
    ∀ (s : Store), WF s → ∀ r2 ∈ (runTrace s tr).receptions,
      r2 ∈ s.receptions ∨ s.nextId ≤ r2.id := by
  induction tr with
  | nil => intro s _ r2 hr2; exact Or.inl hr2
  | cons a tr ih =>
      intro s hWF r2 hr2
      rcases ih (apiStep s a).2 (wf_apiStep hWF a) r2 hr2 with h | h
      · rcases reception_new_id s a h with h1 | h1
        · exact Or.inl h1
        · exact Or.inr (Nat.le_of_eq h1.symm)
      · exact Or.inr (Nat.le_trans (nextId_mono s a) h)

/-- Reception rows persist along any trace. -/
theorem runTrace_reception_persists (tr : List Action) :
    ∀ (s : Store) {r : ReceptionRow}, r ∈ s.receptions →
      r ∈ (runTrace s tr).receptions := by
  induction tr with
  | nil => intro s r hr; exact hr
  | cons a tr ih => intro s r hr; exact ih _ (reception_persists s a hr)

/-- The products of a closed reception are untouched along any trace. -/
theorem runTrace_closed_products (tr : List Action) :
    ∀ (s : Store) {r : ReceptionRow}, WF s → r ∈ s.receptions →
      r.status = ReceptionStatus.close →
      productsOf (runTrace s tr) r.id = productsOf s r.id := by
  induction tr with
  | nil => intro s r _ _ _; rfl
  | cons a tr ih =>
      intro s r hWF hr hc
      have h1 := closed_products_frame s a hWF hr hc
      have h2 := ih (apiStep s a).2 (wf_apiStep hWF a) (reception_persists s a hr) hc
      rw [show runTrace s (a :: tr) = runTrace (apiStep s a).2 tr from rfl, h2, h1]

/-- The one-way-closure contract of C6 for one closed reception row and one
subsequent trace: the row survives every later operation, its product set
never changes (nothing is ever added to a closed reception), any row bearing
its id IS that closed row (it is never reopened under the same identity),
and every reception row created during the trace bears an id distinct from
every pre-existing row (a later openReception yields a new identity). -/
def closedFrozenSpec (s : Store) (tr : List Action) (r : ReceptionRow) : Prop :=
  r ∈ (runTrace s tr).receptions ∧
  productsOf (runTrace s tr) r.id = productsOf s r.id ∧
  (∀ r2 ∈ (runTrace s tr).receptions, r2.id = r.id → r2 = r) ∧
  (∀ r2 ∈ (runTrace s tr).receptions, r2 ∉ s.receptions →
     ∀ r0 ∈ s.receptions, r2.id ≠ r0.id)

/-- C6: once a Reception row is closed, no sequence of API calls ever adds a
product to its identity or returns it to the open state; later receptions
(in particular those created by a later openReception) always carry fresh,
distinct identities. -/
theorem closed_reception_one_way (s : Store) (tr : List Action)
    (r : ReceptionRow) (hWF : WF s) (hr : r ∈ s.receptions)
    (hc : r.status = ReceptionStatus.close) : closedFrozenSpec s tr r := by
  have hWF2 := wf_runTrace hWF tr
  obtain ⟨g1, g2, g3, g4, g5, g6, g7, g8, g9⟩ := hWF2
  obtain ⟨h1, h2, h3, h4, h5, h6, h7, h8, h9⟩ := hWF
  refine ⟨runTrace_reception_persists tr s hr, ?_, ?_, ?_⟩
  · exact runTrace_closed_products tr s ⟨h1, h2, h3, h4, h5, h6, h7, h8, h9⟩ hr hc
  · intro r2 hr2 hid
    exact List.inj_on_of_nodup_map g1 hr2
      (runTrace_reception_persists tr s hr) hid
  · intro r2 hr2 hnew r0 hr0 hid
    rcases runTrace_reception_ids tr s ⟨h1, h2, h3, h4, h5, h6, h7, h8, h9⟩
        r2 hr2 with h | h
    · exact hnew h
    · exact Nat.lt_irrefl _ (Nat.lt_of_lt_of_le (hid ▸ h3 r0 hr0) h)

/-- C6 (witness): the closed row inserted by the close call in the concrete
three-call store, followed by a reopen-and-add-product trace. -/
theorem closed_reception_one_way_witness :
    WF storeClosed1 ∧
    (⟨2, 0, 2, ReceptionStatus.close⟩ : ReceptionRow) ∈ storeClosed1.receptions ∧
    closedFrozenSpec storeClosed1
      [Action.openReception 0, Action.addProduct 0 ProductType.electonic,
       Action.closeReception 0]
      ⟨2, 0, 2, ReceptionStatus.close⟩ :=
  ⟨by decide, by decide,
   closed_reception_one_way storeClosed1
     [Action.openReception 0, Action.addProduct 0 ProductType.electonic,
      Action.closeReception 0]
     ⟨2, 0, 2, ReceptionStatus.close⟩ (by decide) (by decide) (by decide)⟩

end PVZ
